import Mathlib

/-!
Verification of the Shopify → Bluefly/Rithum webhook sync pipeline.

This file gives a shallow embedding of the pure core of the repository
(field transformation engine in `field_mapper.py`, the event
deduplication and inventory-override logic in `process_products.py` and
`app.py`, the status/stage tracking of `logger.py` and
`pipeline_logger.py`, and the HMAC webhook authentication of `app.py`),
and proves the specification claims about them.

Python strings are modelled as Lean `String` (ASCII semantics for
case-folding and the `\w`/`\s` character classes of the slug regexes),
Python numbers used for prices as `ℚ` with explicit round-half-to-even
(Python's `round`), and Python dicts as structures / association lists.
-/

namespace BlueflySync

/-! ## Python string primitives -/

/-- `str.lower()` (ASCII case folding). -/
def pyLower (s : String) : String := String.mk (s.toList.map Char.toLower)

/-- `str.upper()` (ASCII case folding). -/
def pyUpper (s : String) : String := String.mk (s.toList.map Char.toUpper)

/-- Python whitespace class (`\s` over ASCII). -/
def isPySpace (c : Char) : Bool :=
  c == ' ' || c == '\t' || c == '\n' || c == '\r' || c == '\x0b' || c == '\x0c'

/-- `str.strip()`: drop whitespace from both ends. -/
def pyStrip (s : String) : String :=
  String.mk (((s.toList.dropWhile isPySpace).reverse.dropWhile isPySpace).reverse)

/-- `needle in hay` for lists of characters: `needle` occurs contiguously. -/
def listContainsSub (needle : List Char) : List Char → Bool
  | [] => needle.isEmpty
  | c :: t => needle.isPrefixOf (c :: t) || listContainsSub needle t

/-- Python's `needle in hay` substring test on strings. -/
def containsSub (hay needle : String) : Bool :=
  listContainsSub needle.toList hay.toList

/-- `sep.join(parts)` (Python `str.join`). -/
def pyJoin (sep : String) : List String → String
  | [] => ""
  | [x] => x
  | x :: y :: rest => x ++ sep ++ pyJoin sep (y :: rest)

/-- `s.split(sep)` for a one-character separator (Python `str.split`). -/
def pySplitChar (sep : Char) : List Char → List String
  | [] => [""]
  | c :: rest =>
    let r := pySplitChar sep rest
    if c == sep then "" :: r
    else
      match r with
      | [] => [String.mk [c]]
      | s :: tl => String.mk (c :: s.toList) :: tl

/-- `s.split("/")[-1] if s else ""`: last `/`-separated segment. -/
def lastSeg (s : String) : String :=
  if s == "" then "" else (pySplitChar '/' s.toList).getLastD ""

/-- `s[-n:]`: the last `n` characters of `s`. -/
def takeRight (n : Nat) (s : String) : String :=
  String.mk (s.toList.drop (s.toList.length - n))

/-- Python's `a < b` on strings: lexicographic comparison by code point. -/
def listStrLt : List Char → List Char → Bool
  | [], [] => false
  | [], _ :: _ => true
  | _ :: _, [] => false
  | c :: cs, d :: ds =>
    if c.toNat < d.toNat then true
    else if d.toNat < c.toNat then false
    else listStrLt cs ds

/-- Python's `a < b` for strings. -/
def pyStrLt (a b : String) : Bool := listStrLt a.toList b.toList

/-! ## Color standard mapping (`field_mapper._COLOR_STANDARD_KEYWORDS`) -/

/-- The ordered keyword table mapping free-form color substrings to the 17
Bluefly standard color buckets. -/
def COLOR_STANDARD_KEYWORDS : List (String × String) := [
  ("off white", "Off White"), ("ivory", "Off White"), ("cream", "Off White"),
  ("black", "Black"),
  ("white", "White"),
  ("beige", "Beige"), ("tan", "Beige"), ("camel", "Beige"), ("khaki", "Beige"), ("taupe", "Beige"), ("sand", "Beige"),
  ("grey", "Grey"), ("gray", "Grey"), ("charcoal", "Grey"), ("slate", "Grey"),
  ("blue", "Blue"), ("navy", "Blue"), ("cobalt", "Blue"), ("teal", "Blue"), ("denim", "Blue"), ("indigo", "Blue"),
  ("red", "Red"), ("burgundy", "Red"), ("wine", "Red"), ("maroon", "Red"), ("crimson", "Red"),
  ("green", "Green"), ("olive", "Green"), ("army", "Green"), ("sage", "Green"), ("forest", "Green"),
  ("brown", "Brown"), ("chocolate", "Brown"), ("cognac", "Brown"),
  ("gold", "Gold"),
  ("silver", "Silver"), ("metallic", "Silver"),
  ("pink", "Pink"), ("blush", "Pink"), ("rose", "Pink"), ("mauve", "Pink"), ("fuchsia", "Pink"),
  ("purple", "Purple"), ("violet", "Purple"), ("lavender", "Purple"), ("plum", "Purple"),
  ("orange", "Orange"), ("coral", "Orange"), ("rust", "Orange"), ("peach", "Orange"),
  ("yellow", "Yellow"), ("mustard", "Yellow"),
  ("multi", "Multi"), ("multicolor", "Multi"), ("pattern", "Multi")]

/-- The `for keyword, standard in ...` loop of `_map_color_standard`. -/
def colorLoop (table : List (String × String)) (color_lower default : String) : String :=
  match table with
  | [] => default
  | kw :: rest =>
    if containsSub color_lower kw.1 then kw.2 else colorLoop rest color_lower default

/-- `field_mapper._map_color_standard`. -/
def map_color_standard (color_str default : String) : String :=
  if color_str == "" then default
  else colorLoop COLOR_STANDARD_KEYWORDS (pyLower color_str) default

/-! ## Slugs and gender (`field_mapper._slugify`, `_gender_slug`) -/

/-- One pass of `re.sub(r"[\s_]+", "-", ...)`: collapse each run of
whitespace/underscore characters into a single hyphen.  The boolean flag
records whether the previous character was part of such a run. -/
def collapseRuns (prev : Bool) : List Char → List Char
  | [] => []
  | c :: rest =>
    if isPySpace c || c == '_' then
      if prev then collapseRuns true rest else '-' :: collapseRuns true rest
    else c :: collapseRuns false rest

/-- `field_mapper._slugify`: lowercase, strip, drop characters outside
`[\w\s-]`, collapse `[\s_]+` runs to hyphens, strip hyphens. -/
def slugify (text : String) : String :=
  let t := pyStrip (pyLower text)
  let kept := t.toList.filter (fun c => c.isAlphanum || c == '_' || c == '-' || isPySpace c)
  let collapsed := collapseRuns false kept
  String.mk (((collapsed.dropWhile (· == '-')).reverse.dropWhile (· == '-')).reverse)

/-- `field_mapper._gender_slug`. -/
def gender_slug (gender_str : String) : String :=
  if gender_str == "" then ""
  else
    let g := pyStrip (pyLower gender_str)
    if containsSub g "woman" || containsSub g "women" || containsSub g "female" then "womens"
    else if containsSub g "man" || containsSub g "men" || containsSub g "male" then "mens"
    else if containsSub g "unisex" || containsSub g "neutral" then "unisex"
    else slugify gender_str

/-! ## Data model (flattened Shopify product, metafields, payload) -/

/-- A flattened metafield `{namespace, key, value}` (`namespace` is spelt
`ns` because it is a Lean keyword). -/
structure Metafield where
  ns : String
  key : String
  value : Option String
deriving DecidableEq

/-- An entry of `variant.selectedOptions`. -/
structure SelectedOption where
  name : String
  value : String
deriving DecidableEq

/-- A product or variant image `{url, altText}`. -/
structure ImageRec where
  url : Option String
deriving DecidableEq

/-- A flattened Shopify variant. -/
structure Variant where
  id : String
  sku : Option String
  title : String
  price : Option ℚ
  compareAtPrice : Option ℚ
  barcode : Option String
  inventoryQuantity : Int
  selectedOptions : List SelectedOption
  image : Option ImageRec
  weight : Option ℚ
deriving DecidableEq

/-- A flattened, enriched Shopify product. -/
structure Product where
  status : String
  vendor : String
  title : String
  descriptionHtml : String
  productType : String
  tags : List String
  variants : List Variant
  images : List ImageRec
deriving DecidableEq

/-- One `{"Name": ..., "Value": ...}` entry of a Rithum Fields array. -/
structure Field where
  Name : String
  Value : Option String
deriving DecidableEq

/-- A Rithum BuyableProduct entry. -/
structure BuyableProduct where
  Fields : List Field
  Quantity : Int
  SellerSKU : String
  ListingStatus : String
deriving DecidableEq

/-- The Rithum product payload; `Options` is `none` when the builder omits
the key. -/
structure Payload where
  Fields : List Field
  SellerSKU : String
  BuyableProducts : List BuyableProduct
  Options : Option (List String)
deriving DecidableEq

/-- The config-driven `field_defaults` dict with the defaults that the
mapper's `.get` calls fall back to. -/
structure FieldDefaults where
  is_returnable : String
  product_condition : String
  color_standard : String
deriving DecidableEq

/-- The default values used when no `field_defaults` config is supplied. -/
def defaultFieldDefaults : FieldDefaults :=
  { is_returnable := "Not Returnable", product_condition := "New", color_standard := "No color" }

/-! ## Metafield / option / tag helpers -/

/-- `field_mapper.get_metafield`. -/
def get_metafield (metafields : List Metafield) (ns key : String) : Option String :=
  match metafields.find? (fun mf => mf.ns == ns && mf.key == key) with
  | some mf => mf.value
  | none => none

/-- `field_mapper._extract_option`. -/
def extract_option (variant : Variant) (option_name : String) : String :=
  match variant.selectedOptions.find? (fun opt => pyLower opt.name == pyLower option_name) with
  | some opt => opt.value
  | none => ""

/-- `field_mapper._parse_tags_for_field`. -/
def parse_tags_for_field (tags : List String) (keywords : List String) : Option String :=
  match tags.find? (fun tag => keywords.any (fun kw => containsSub (pyLower (pyStrip tag)) kw)) with
  | some tag => some (pyStrip tag)
  | none => none

/-- `field_mapper.should_sync_product`. -/
def should_sync_product (product : Product) : Bool :=
  pyUpper product.status == "ACTIVE"

/-! ## SKU derivation (`field_mapper._derive_sku`) -/

/-- `re.sub(r"^[^\d]+", "", seller_id) or seller_id`: strip any
non-numeric prefix, keeping the original when nothing remains. -/
def numericSellerId (seller_id : String) : String :=
  let t := seller_id.toList.dropWhile (fun c => !c.isDigit)
  if t.isEmpty then seller_id else String.mk t

/-- The bare variant SKU with the `SHOPIFY-{id}` fallback (lines 195-199 of
`_derive_sku`). -/
def bareVariantSku (variant : Variant) : String :=
  let variant_sku := pyStrip (variant.sku.getD "")
  if variant_sku == "" then
    let numeric := lastSeg variant.id
    if numeric != "" then "SHOPIFY-" ++ numeric else ""
  else variant_sku

/-- `"c" + numeric_id[-4:]` when the numeric id has at least 4 characters,
else `"c" + numeric_id`. -/
def colorCode (variant : Variant) : String :=
  let numeric_id := lastSeg variant.id
  if numeric_id.length ≥ 4 then "c" ++ takeRight 4 numeric_id else "c" ++ numeric_id

/-- The color string used by `_derive_sku` (selectedOptions, falling back
to the `custom.color` metafield when the option is absent). -/
def skuColor (variant : Variant) (metafields : List Metafield) : String :=
  let color := extract_option variant "color"
  if color == "" && !metafields.isEmpty then (get_metafield metafields "custom" "color").getD ""
  else color

/-- The raw gender string used by `_derive_sku` (metafield first, then the
first tag containing a gender word). -/
def skuGenderRaw (product : Product) (metafields : List Metafield) : String :=
  let gender_raw := if !metafields.isEmpty then (get_metafield metafields "custom" "gender").getD "" else ""
  if gender_raw == "" then
    match product.tags.find? (fun tag =>
        ["mens", "womens", "women", "men", "unisex"].any (fun w => containsSub (pyLower tag) w)) with
    | some tag => tag
    | none => ""
  else gender_raw

/-- `field_mapper._derive_sku`. -/
def derive_sku (variant : Variant) (seller_id : String) (product : Option Product)
    (metafields : List Metafield) : String :=
  let variant_sku := bareVariantSku variant
  match product with
  | none => variant_sku
  | some product =>
    if seller_id == "" then variant_sku
    else
      let seller_id := numericSellerId seller_id
      let color_slug := slugify (skuColor variant metafields)
      let gender := gender_slug (skuGenderRaw product metafields)
      let vendor0 := slugify product.vendor
      let vendor := if vendor0 == seller_id then "" else vendor0
      let raw_type :=
        if containsSub product.productType "/" then pyStrip (lastSeg product.productType)
        else product.productType
      let product_type := slugify raw_type
      let handle_parts := ([vendor, gender, product_type].filter (fun p => p != "")) ++
        (if color_slug != "" then ["in-" ++ color_slug] else [])
      let handle := pyJoin "-" handle_parts
      let sku_slug := slugify variant_sku
      pyJoin "-" ([handle, sku_slug, colorCode variant].filter (fun p => p != ""))

/-- The SKU formula as the specification states it: the six segments
`{vendor-slug}`, `{gender}`, `{product-type-slug}`, `in-{color-slug}`,
`{variant-sku-slug}`, `{color-code}` with every empty segment omitted and
the rest hyphen-joined (the vendor slug dropped when it equals the numeric
seller id). -/
def derive_sku_claim (variant : Variant) (seller_id : String) (product : Product)
    (metafields : List Metafield) : String :=
  let sid := numericSellerId seller_id
  let vendor0 := slugify product.vendor
  let vendor := if vendor0 == sid then "" else vendor0
  let gender := gender_slug (skuGenderRaw product metafields)
  let raw_type :=
    if containsSub product.productType "/" then pyStrip (lastSeg product.productType)
    else product.productType
  let product_type := slugify raw_type
  let color_slug := slugify (skuColor variant metafields)
  let in_color := if color_slug == "" then "" else "in-" ++ color_slug
  let sku_slug := slugify (bareVariantSku variant)
  pyJoin "-" ([vendor, gender, product_type, in_color, sku_slug, colorCode variant].filter
    (fun p => p != ""))

/-! ## Price adjustment and formatting (`_adjust_price`, `_format_price`,
`_format_weight`) -/

/-- Round-half-to-even to an integer (Python's `round`). -/
def roundHalfEven (q : ℚ) : ℤ :=
  let f := ⌊q⌋
  let r := q - f
  if r < 1/2 then f
  else if 1/2 < r then f + 1
  else if f % 2 = 0 then f else f + 1

/-- `round(p, d)`: round to `d` decimal places, half to even. -/
def pyRound (q : ℚ) (d : Nat) : ℚ :=
  (roundHalfEven (q * (10 : ℚ) ^ d) : ℚ) / (10 : ℚ) ^ d

/-- `field_mapper._adjust_price`: apply a percentage adjustment
(`p * (1 + pct/100)` when the percentage is non-zero) and round to
2 decimals; `None` passes through. -/
def adjust_price (price : Option ℚ) (adjustment_pct : ℚ) : Option ℚ :=
  match price with
  | none => none
  | some p =>
    let p := if adjustment_pct ≠ 0 then p * (1 + adjustment_pct / 100) else p
    some (pyRound p 2)

/-- Render a scaled integer `n` (the value times `10 ^ d`) with `d` digits
after the decimal point, as Python's fixed-point formatting does. -/
def renderScaled (d : Nat) (n : ℤ) : String :=
  let m := n.natAbs
  let frac := toString (m % 10 ^ d)
  let fracPadded := String.mk (List.replicate (d - frac.length) '0') ++ frac
  (if n < 0 then "-" else "") ++ toString (m / 10 ^ d) ++ "." ++ fracPadded

/-- `f"{x:.{d}f}"`: fixed-point formatting with `d` decimals. -/
def formatFixed (d : Nat) (q : ℚ) : String :=
  renderScaled d (roundHalfEven (q * (10 : ℚ) ^ d))

/-- `field_mapper._format_price`: 2-decimal string, `None` passes through. -/
def format_price (price : Option ℚ) : Option String :=
  price.map (formatFixed 2)

/-- `field_mapper._format_weight`: 4-decimal string, `None` passes through. -/
def format_weight (weight : Option ℚ) : Option String :=
  weight.map (formatFixed 4)

/-! ## Product-level field mapping (`field_mapper.map_product_fields`) -/

/-- `field_mapper.map_product_fields`: the product-level Fields array. -/
def map_product_fields (product : Product) (metafields : List Metafield) : List Field :=
  let category_id := get_metafield metafields "custom" "bluefly_category"
  let material := parse_tags_for_field product.tags
    ["leather", "silk", "cotton", "wool", "polyester", "metal", "plastic", "acetate"]
  let pattern := parse_tags_for_field product.tags
    ["stripe", "plaid", "check", "floral", "solid", "print", "geometric"]
  [⟨"category", some (category_id.getD "")⟩,
   ⟨"brand", some product.vendor⟩,
   ⟨"name", some product.title⟩,
   ⟨"description", some product.descriptionHtml⟩,
   ⟨"type_frames", if product.productType == "" then none else some product.productType⟩,
   ⟨"material_clothing", material⟩,
   ⟨"pattern", pattern⟩,
   ⟨"gender", get_metafield metafields "custom" "gender"⟩,
   ⟨"sub_category", get_metafield metafields "custom" "sub_category"⟩,
   ⟨"care_instructions", get_metafield metafields "custom" "care_instructions"⟩,
   ⟨"country_of_manufacture", get_metafield metafields "custom" "country_of_origin"⟩,
   ⟨"size_notes", get_metafield metafields "custom" "size_notes"⟩]

/-! ## Variant mapping (`field_mapper.map_variant_to_buyable`) -/

/-- Overwrite the value of the first field named `name`, as the
`next(f for f in fields if ...)` mutation does. -/
def setFirstField (fields : List Field) (name : String) (value : Option String) : List Field :=
  match fields with
  | [] => []
  | f :: rest =>
    if f.Name == name then { f with Value := value } :: rest
    else f :: setFirstField rest name value

/-- Apply the SQL-looked-up `{FieldName: BFValue}` entries in order:
overwrite an existing field of the same name, else append. -/
def applySqlFields (fields : List Field) (sql_fields : List (String × Option String)) : List Field :=
  sql_fields.foldl (fun fs kv =>
    if fs.any (fun f => f.Name == kv.1) then setFirstField fs kv.1 kv.2
    else fs ++ [⟨kv.1, kv.2⟩]) fields

/-- The de-duplicated image URL list: variant image first (when its url is
truthy), then product images in order. -/
def imageSources (variant : Variant) (product_images : List ImageRec) : List String :=
  let init := match variant.image with
    | some im => match im.url with
      | some u => if u == "" then [] else [u]
      | none => []
    | none => []
  product_images.foldl (fun acc img =>
    match img.url with
    | some u => if u != "" && !acc.contains u then acc ++ [u] else acc
    | none => acc) init

/-- The five numbered `image_i` fields (unused slots are null). -/
def imageFields (sources : List String) : List Field :=
  (List.range 5).map (fun i => ⟨"image_" ++ toString (i + 1), sources.get? i⟩)

/-- `field_mapper.map_variant_to_buyable`. -/
def map_variant_to_buyable (variant : Variant) (product_images : List ImageRec)
    (sql_fields : List (String × Option String)) (product_status : String)
    (metafields : List Metafield) (price_adjustment_pct : ℚ)
    (field_defaults : FieldDefaults) (seller_id : String) (product : Option Product) :
    BuyableProduct :=
  let color_display :=
    let c := extract_option variant "color"
    if c == "" then (get_metafield metafields "custom" "color").getD "" else c
  let head : List Field :=
    [⟨"color", if color_display == "" then none else some color_display⟩,
     ⟨"color_standard", some (map_color_standard color_display field_defaults.color_standard)⟩,
     ⟨"size", let s := extract_option variant "size"; if s == "" then none else some s⟩,
     ⟨"is_returnable", some field_defaults.is_returnable⟩,
     ⟨"product_condition", some field_defaults.product_condition⟩,
     ⟨"upc", match variant.barcode with
             | some b => if b == "" then none else some b
             | none => none⟩]
  let selling_price := adjust_price variant.price price_adjustment_pct
  let compare_at := adjust_price variant.compareAtPrice 0
  let priceFields : List Field :=
    match compare_at with
    | some ca => [⟨"price", format_price (some ca)⟩, ⟨"special_price", format_price selling_price⟩]
    | none => [⟨"price", format_price selling_price⟩, ⟨"special_price", none⟩]
  let fields := head ++ priceFields ++ imageFields (imageSources variant product_images) ++
    [⟨"weight", format_weight variant.weight⟩]
  let fields := applySqlFields fields sql_fields
  { Fields := fields,
    Quantity := variant.inventoryQuantity,
    SellerSKU := derive_sku variant seller_id product metafields,
    ListingStatus := if pyUpper product_status == "ACTIVE" then "Live" else "NotLive" }

/-! ## Payload builders (`build_quantity_price_payload`,
`_build_options`, `build_bluefly_payload`) -/

/-- `field_mapper.build_quantity_price_payload`: the lightweight
quantity/price payload. -/
def build_quantity_price_payload (product : Product) (metafields : List Metafield)
    (price_adjustment_pct : ℚ) (field_defaults : FieldDefaults) (seller_id : String) : Payload :=
  let listing_status := if pyUpper product.status == "ACTIVE" then "Live" else "NotLive"
  let buyable_products := product.variants.map (fun variant =>
    let selling_price := adjust_price variant.price price_adjustment_pct
    let compare_at := adjust_price variant.compareAtPrice 0
    let priceFields : List Field :=
      match compare_at with
      | some ca => [⟨"price", format_price (some ca)⟩, ⟨"special_price", format_price selling_price⟩]
      | none =>
        match selling_price with
        | some sp => [⟨"price", format_price (some sp)⟩]
        | none => []
    { Fields := ⟨"is_returnable", some field_defaults.is_returnable⟩ :: priceFields,
      Quantity := variant.inventoryQuantity,
      SellerSKU := derive_sku variant seller_id (some product) metafields,
      ListingStatus := listing_status })
  let seller_sku := match product.variants with
    | [] => ""
    | v :: _ => derive_sku v seller_id (some product) metafields
  { Fields := [], SellerSKU := seller_sku, BuyableProducts := buyable_products, Options := none }

/-- `field_mapper._build_options`: ordered, case-folded variant option
names (excluding the `Title` placeholder), with a leading synthesized
`color` when only the metafield supplies a color. -/
def build_options (variants : List Variant) (metafields : List Metafield) : List String :=
  let names := variants.foldl (fun acc variant =>
    variant.selectedOptions.foldl (fun acc2 opt =>
      if opt.name != "" && pyLower opt.name != "title" && !acc2.contains (pyLower opt.name) then
        acc2 ++ [pyLower opt.name]
      else acc2) acc) []
  if !names.contains "color" then
    match get_metafield metafields "custom" "color" with
    | some c => if c != "" then "color" :: names else names
    | none => names
  else names

/-- `field_mapper.build_bluefly_payload`: the complete Rithum body for one
product, with null-valued fields stripped. -/
def build_bluefly_payload (product : Product) (metafields : List Metafield)
    (sql_field_map : List (String × List (String × Option String)))
    (price_adjustment_pct : ℚ) (field_defaults : FieldDefaults) (seller_id : String) : Payload :=
  let product_fields := (map_product_fields product metafields).filter (fun f => f.Value.isSome)
  let buyable_products := product.variants.map (fun variant =>
    let sql_fields := ((sql_field_map.find? (fun kv => kv.1 == variant.title)).map Prod.snd).getD []
    let buyable := map_variant_to_buyable variant product.images sql_fields product.status
      metafields price_adjustment_pct field_defaults seller_id (some product)
    { buyable with Fields := buyable.Fields.filter (fun f => f.Value.isSome) })
  let seller_sku := match product.variants with
    | [] => ""
    | v :: _ => derive_sku v seller_id (some product) metafields
  let options := build_options product.variants metafields
  { Fields := product_fields,
    SellerSKU := seller_sku,
    BuyableProducts := buyable_products,
    Options := if options.isEmpty then none else some options }

/-! ## Inventory-event quantity override (`process_products.py` lines
288-292 and `app.py` lines 291-293) -/

/-- The `for bp in payload["BuyableProducts"]: if bp["SellerSKU"] ==
variant_sku: bp["Quantity"] = new_available` loop. -/
def overrideQuantity (payload : Payload) (variant_sku : String) (new_available : Int) : Payload :=
  { payload with BuyableProducts := payload.BuyableProducts.map (fun bp =>
      if bp.SellerSKU == variant_sku then { bp with Quantity := new_available } else bp) }

/-- The payload pushed by `process_products.process_inventory_event` for a
resolved, eligible, categorized product: lightweight payload built with
`seller_id=BLUEFLY_SELLER_ID`, then the matching variant's quantity
overridden with the webhook value. -/
def process_inventory_payload_batch (enriched : Product) (metafields : List Metafield)
    (seller_id variant_sku : String) (new_available : Int) : Payload :=
  overrideQuantity (build_quantity_price_payload enriched metafields 0 defaultFieldDefaults seller_id)
    variant_sku new_available

/-- The payload pushed by `app._sync_inventory_to_bluefly` (same shape,
but `build_quantity_price_payload` is called without a seller id). -/
def process_inventory_payload_webhook (enriched : Product) (metafields : List Metafield)
    (variant_sku : String) (new_available : Int) : Payload :=
  overrideQuantity (build_quantity_price_payload enriched metafields 0 defaultFieldDefaults "")
    variant_sku new_available

/-! ## Event deduplication (`process_products.deduplicate_product_events`)

Python object identity (`id(ev)`) is modelled by pairing each event with
its position in the scanned list. -/

/-- An unread webhook event as seen by the batch pipeline: its file path,
the product id of its payload, and its record timestamp. -/
structure WebhookEvent where
  file : String
  pid : Option Nat
  timestamp : String
deriving DecidableEq

/-- Pair each element with its index, starting at `n`. -/
def withIdx {α : Type} (n : Nat) : List α → List (Nat × α)
  | [] => []
  | a :: l => (n, a) :: withIdx (n + 1) l

/-- `by_product[pid] = ev`: set the value of a key in an association list,
keeping the first-insertion position as a Python dict does. -/
def assocSet {α : Type} (k : Nat) (v : α) : List (Nat × α) → List (Nat × α)
  | [] => [(k, v)]
  | (k', v') :: rest => if k' = k then (k, v) :: rest else (k', v') :: assocSet k v rest

/-- One iteration of the `for ev in events` loop: keep the event with the
strictly greater timestamp per product id, skip events without an id. -/
def dedupStep (acc : List (Nat × Nat × WebhookEvent)) (p : Nat × WebhookEvent) :
    List (Nat × Nat × WebhookEvent) :=
  match p.2.pid with
  | none => acc
  | some pid =>
    match acc.lookup pid with
    | none => assocSet pid p acc
    | some q => if pyStrLt q.2.timestamp p.2.timestamp then assocSet pid p acc else acc

/-- `process_products.deduplicate_product_events`: returns
`(latest_events, skipped_events)`, both in original scan order. -/
def deduplicate_product_events (events : List WebhookEvent) :
    List WebhookEvent × List WebhookEvent :=
  let indexed := withIdx 0 events
  let by_product := indexed.foldl dedupStep []
  let keptIdx := by_product.map (fun kv => kv.2.1)
  (((indexed.filter (fun p => keptIdx.contains p.1)).map Prod.snd),
   ((indexed.filter (fun p => !keptIdx.contains p.1)).map Prod.snd))

/-- The `for ev in skipped_products: tx_logger.update_status(ev["file"],
"processed")` loop of `process_products.main`: each skipped duplicate's
webhook record gets status `processed` and nothing else happens to it. -/
def mark_skipped_processed (skipped : List WebhookEvent) : List (String × String) :=
  skipped.map (fun ev => (ev.file, "processed"))

/-! ## Webhook transaction log (`logger.TransactionLogger`) -/

/-- The fixed status enum of the webhook transaction log. -/
def STATUSES : List String := ["unread", "read", "processing", "processed", "error"]

/-- A persisted webhook transaction record (the fields `update_status`
touches, plus the payload left opaque). -/
structure TxRecord where
  status : String
  status_updated_at : Option String
  topic : String
  payload : String
deriving DecidableEq

/-- Replace the record stored at a path. -/
def storeSet {α : Type} (store : List (String × α)) (path : String) (r : α) :
    List (String × α) :=
  store.map (fun kv => if kv.1 == path then (path, r) else kv)

/-- `logger.TransactionLogger.update_status` acting on the persisted
store: validation happens before the file is opened, so an invalid status
raises and leaves the store untouched. -/
def update_status (store : List (String × TxRecord)) (file_path new_status now : String) :
    List (String × TxRecord) × Except String TxRecord :=
  if new_status ∉ STATUSES then
    (store, Except.error "Invalid status")
  else
    match store.lookup file_path with
    | none => (store, Except.error "FileNotFoundError")
    | some record =>
      let record := { record with status := new_status, status_updated_at := some now }
      (storeSet store file_path record, Except.ok record)

/-! ## Pipeline job log (`pipeline_logger.PipelineLogger`) -/

/-- The fixed pipeline stage/status enum. -/
def PIPELINE_STATUSES : List String :=
  ["queued", "enriching", "enriched", "mapping", "mapped", "pushing", "pushed", "error", "skipped"]

/-- One entry of a pipeline job's `stages` history. -/
structure StageEntry where
  stage : String
  timestamp : String
  data : Option String
  error : Option String
deriving DecidableEq

/-- A pipeline job record. -/
structure PipelineJob where
  job_id : String
  source_webhook_file : String
  topic : String
  product_id : String
  event_id : String
  created_at : String
  status : String
  error : Option String
  stages : List StageEntry
deriving DecidableEq

/-- `pipeline_logger.PipelineLogger.create_job`: a fresh job record with
status `queued` and a single `queued` stage entry. -/
def create_job (source_file topic product_id event_id now : String) : PipelineJob :=
  { job_id := now ++ "_product_" ++ product_id,
    source_webhook_file := source_file,
    topic := topic,
    product_id := product_id,
    event_id := event_id,
    created_at := now,
    status := "queued",
    error := none,
    stages := [⟨"queued", now, none, none⟩] }

/-- `pipeline_logger.PipelineLogger.update_stage` on the job record:
validate the stage name, set the top-level status, append to the stage
history, and set the sticky error field when an error string is truthy. -/
def update_stage (job : PipelineJob) (stage : String) (data error : Option String)
    (now : String) : Except String PipelineJob :=
  if stage ∉ PIPELINE_STATUSES then
    Except.error "Invalid stage"
  else
    Except.ok
      { job with
        status := stage,
        stages := job.stages ++ [⟨stage, now, data, error⟩],
        error := match error with
          | some e => if e == "" then job.error else some e
          | none => job.error }

/-- `update_stage` acting on the persisted job store (validation precedes
opening the file, so an invalid stage leaves the store untouched). -/
def update_stage_store (store : List (String × PipelineJob))
    (job_path stage : String) (data error : Option String) (now : String) :
    List (String × PipelineJob) × Except String PipelineJob :=
  if stage ∉ PIPELINE_STATUSES then
    (store, Except.error "Invalid stage")
  else
    match store.lookup job_path with
    | none => (store, Except.error "FileNotFoundError")
    | some job =>
      match update_stage job stage data error now with
      | Except.ok job => (storeSet store job_path job, Except.ok job)
      | Except.error e => (store, Except.error e)

/-- Arguments of one `update_stage` call. -/
structure StageCall where
  stage : String
  data : Option String
  error : Option String
  now : String
deriving DecidableEq

/-- Run a sequence of `update_stage` calls on a job record. -/
def runStages (job : PipelineJob) : List StageCall → Except String PipelineJob
  | [] => Except.ok job
  | c :: rest =>
    match update_stage job c.stage c.data c.error c.now with
    | Except.ok job => runStages job rest
    | Except.error e => Except.error e

/-! ## HMAC-SHA256 webhook authentication (`app.verify_shopify_hmac`)

The stdlib primitives (`hashlib.sha256`, `hmac.new`, `base64.b64encode`)
are embedded executably per their standard definitions (FIPS 180-4,
RFC 2104, RFC 4648); bytes are `Nat`s below 256 and 32-bit words are
`Nat`s reduced modulo `2 ^ 32`. -/

/-- Truncate to a 32-bit word. -/
def w32 (n : Nat) : Nat := n % 4294967296

/-- 32-bit right rotation. -/
def rotr (n x : Nat) : Nat := w32 ((x >>> n) ||| (x <<< (32 - n)))

/-- SHA-256 `Ch(x,y,z) = (x ∧ y) ⊕ (¬x ∧ z)`. -/
def shaCh (x y z : Nat) : Nat := (x &&& y) ^^^ ((x ^^^ 4294967295) &&& z)

/-- SHA-256 `Maj(x,y,z)`. -/
def shaMaj (x y z : Nat) : Nat := (x &&& y) ^^^ (x &&& z) ^^^ (y &&& z)

/-- SHA-256 `Σ₀`. -/
def bigSigma0 (x : Nat) : Nat := rotr 2 x ^^^ rotr 13 x ^^^ rotr 22 x

/-- SHA-256 `Σ₁`. -/
def bigSigma1 (x : Nat) : Nat := rotr 6 x ^^^ rotr 11 x ^^^ rotr 25 x

/-- SHA-256 `σ₀`. -/
def smallSigma0 (x : Nat) : Nat := rotr 7 x ^^^ rotr 18 x ^^^ (x >>> 3)

/-- SHA-256 `σ₁`. -/
def smallSigma1 (x : Nat) : Nat := rotr 17 x ^^^ rotr 19 x ^^^ (x >>> 10)

/-- The SHA-256 round constants `K`. -/
def shaK : List Nat :=
  [1116352408, 1899447441, 3049323471, 3921009573,
   961987163, 1508970993, 2453635748, 2870763221,
   3624381080, 310598401, 607225278, 1426881987,
   1925078388, 2162078206, 2614888103, 3248222580,
   3835390401, 4022224774, 264347078, 604807628,
   770255983, 1249150122, 1555081692, 1996064986,
   2554220882, 2821834349, 2952996808, 3210313671,
   3336571891, 3584528711, 113926993, 338241895,
   666307205, 773529912, 1294757372, 1396182291,
   1695183700, 1986661051, 2177026350, 2456956037,
   2730485921, 2820302411, 3259730800, 3345764771,
   3516065817, 3600352804, 4094571909, 275423344,
   430227734, 506948616, 659060556, 883997877,
   958139571, 1322822218, 1537002063, 1747873779,
   1955562222, 2024104815, 2227730452, 2361852424,
   2428436474, 2756734187, 3204031479, 3329325298]

/-- The SHA-256 initial hash value `H⁽⁰⁾`. -/
def shaH0 : List Nat :=
  [1779033703, 3144134277, 1013904242, 2773480762,
   1359893119, 2600822924, 528734635, 1541459225]

/-- Big-endian byte expansion of `n` into `k` bytes. -/
def beBytes (k n : Nat) : List Nat :=
  (List.range k).map (fun i => (n >>> (8 * (k - 1 - i))) % 256)

/-- Combine big-endian bytes into one number. -/
def beWord (bytes : List Nat) : Nat :=
  bytes.foldl (fun acc b => acc * 256 + b) 0

/-- SHA-256 message padding: `0x80`, zeros to 56 mod 64, 8-byte bit length. -/
def sha256Pad (msg : List Nat) : List Nat :=
  let len := msg.length
  let k := (119 - len % 64) % 64
  msg ++ [0x80] ++ List.replicate k 0 ++ beBytes 8 (len * 8)

/-- Split a byte list into 64-byte blocks (the input length is a multiple
of 64 after padding). -/
def toBlocksAux : Nat → List Nat → List (List Nat)
  | 0, _ => []
  | Nat.succ n, l => l.take 64 :: toBlocksAux n (l.drop 64)

/-- All 64-byte blocks of a padded message. -/
def toBlocks (l : List Nat) : List (List Nat) := toBlocksAux (l.length / 64) l

/-- The 64-entry message schedule `W` of one block. -/
def shaSchedule (block : List Nat) : List Nat :=
  let w16 := (List.range 16).map (fun i => beWord ((block.drop (4 * i)).take 4))
  (List.range 48).foldl (fun w _ =>
    let t2 := w.getD (w.length - 2) 0
    let t7 := w.getD (w.length - 7) 0
    let t15 := w.getD (w.length - 15) 0
    let t16 := w.getD (w.length - 16) 0
    w ++ [w32 (smallSigma1 t2 + t7 + smallSigma0 t15 + t16)]) w16

/-- One SHA-256 compression round on the working variables `a..h`. -/
def shaRound (st : List Nat) (kw : Nat × Nat) : List Nat :=
  let a := st.getD 0 0
  let b := st.getD 1 0
  let c := st.getD 2 0
  let d := st.getD 3 0
  let e := st.getD 4 0
  let f := st.getD 5 0
  let g := st.getD 6 0
  let h := st.getD 7 0
  let t1 := w32 (h + bigSigma1 e + shaCh e f g + kw.1 + kw.2)
  let t2 := w32 (bigSigma0 a + shaMaj a b c)
  [w32 (t1 + t2), a, b, c, w32 (d + t1), e, f, g]

/-- Process one 64-byte block into the running hash value. -/
def shaProcessBlock (h : List Nat) (block : List Nat) : List Nat :=
  let st := (shaK.zip (shaSchedule block)).foldl shaRound h
  (h.zip st).map (fun p => w32 (p.1 + p.2))

/-- `hashlib.sha256(msg).digest()`: the 32-byte SHA-256 digest. -/
def sha256 (msg : List Nat) : List Nat :=
  (((toBlocks (sha256Pad msg)).foldl shaProcessBlock shaH0).map (beBytes 4)).flatten

/-- `hmac.new(key, msg, hashlib.sha256).digest()` (RFC 2104, block size
64). -/
def hmacSha256 (key msg : List Nat) : List Nat :=
  let k0 := if key.length > 64 then sha256 key else key
  let k1 := k0 ++ List.replicate (64 - k0.length) 0
  sha256 ((k1.map (fun b => b ^^^ 0x5c)) ++ sha256 ((k1.map (fun b => b ^^^ 0x36)) ++ msg))

/-- The standard base64 alphabet. -/
def b64Alphabet : List Char :=
  "ABCDEFGHIJKLMNOPQRSTUVWXYZabcdefghijklmnopqrstuvwxyz0123456789+/".toList

/-- The base64 character of a 6-bit value. -/
def b64Char (n : Nat) : Char := b64Alphabet.getD n '?'

/-- `base64.b64encode` (RFC 4648, with `=` padding). -/
def b64Encode : List Nat → List Char
  | [] => []
  | [a] => [b64Char (a / 4), b64Char (a % 4 * 16), '=', '=']
  | [a, b] => [b64Char (a / 4), b64Char (a % 4 * 16 + b / 16), b64Char (b % 16 * 4), '=']
  | a :: b :: c :: rest =>
    b64Char (a / 4) :: b64Char (a % 4 * 16 + b / 16) :: b64Char (b % 16 * 4 + c / 64) ::
    b64Char (c % 64) :: b64Encode rest

/-- The 6-bit value of a base64 character. -/
def b64DecChar (c : Char) : Nat := b64Alphabet.indexOf c

/-- Base64 decoding of well-formed encoder output (used to invert
`b64Encode`). -/
def b64Decode : List Char → List Nat
  | c1 :: c2 :: c3 :: c4 :: rest =>
    let v1 := b64DecChar c1 * 4 + b64DecChar c2 / 16
    if c3 = '=' then [v1]
    else
      let v2 := b64DecChar c2 % 16 * 16 + b64DecChar c3 / 4
      if c4 = '=' then [v1, v2]
      else v1 :: v2 :: (b64DecChar c3 % 4 * 64 + b64DecChar c4) :: b64Decode rest
  | _ => []

/-- UTF-8 encoding of one character (`str.encode("utf-8")`). -/
def utf8Bytes (c : Char) : List Nat :=
  let n := c.toNat
  if n < 0x80 then [n]
  else if n < 0x800 then [0xc0 ||| (n >>> 6), 0x80 ||| (n &&& 0x3f)]
  else if n < 0x10000 then
    [0xe0 ||| (n >>> 12), 0x80 ||| ((n >>> 6) &&& 0x3f), 0x80 ||| (n &&& 0x3f)]
  else
    [0xf0 ||| (n >>> 18), 0x80 ||| ((n >>> 12) &&& 0x3f), 0x80 ||| ((n >>> 6) &&& 0x3f),
     0x80 ||| (n &&& 0x3f)]

/-- `str.encode("utf-8")` for a whole string. -/
def strBytes (s : String) : List Nat := (s.toList.map utf8Bytes).flatten

/-- `app.verify_shopify_hmac`: base64-encode the HMAC-SHA256 of the raw
body under the secret and compare it (via `hmac.compare_digest`, i.e.
constant-time string equality) with the claimed header. -/
def verify_shopify_hmac (data : List Nat) (hmac_header : String) (secret : String) : Bool :=
  let computed := String.mk (b64Encode (hmacSha256 (strBytes secret) data))
  computed == hmac_header

/-! ## Sample inputs (used by concrete evaluations and witnesses) -/

/-- A sample variant: SKU `ABC123`, numeric id `11112222`, quantity 3. -/
def sampleVariant : Variant :=
  { id := "gid://shopify/ProductVariant/11112222", sku := some "ABC123",
    title := "Default Title", price := some 100, compareAtPrice := none, barcode := none,
    inventoryQuantity := 3, selectedOptions := [], image := none, weight := none }

/-- A sample active product holding `sampleVariant`. -/
def sampleProduct : Product :=
  { status := "ACTIVE", vendor := "Gucci", title := "Shoe", descriptionHtml := "",
    productType := "Shoes", tags := [], variants := [sampleVariant], images := [] }

/-- Sample metafields carrying the required `custom.bluefly_category`. -/
def sampleMetafields : List Metafield := [⟨"custom", "bluefly_category", some "194"⟩]

/-- A variant with compare-at 120 and price 100, as in the end-to-end
pricing scenario. -/
def priceWitnessVariant : Variant :=
  { id := "gid://shopify/ProductVariant/99990001", sku := some "SKU1",
    title := "Default Title", price := some 100, compareAtPrice := some 120, barcode := none,
    inventoryQuantity := 5, selectedOptions := [], image := none, weight := none }

/-- A sample product with no variants at all. -/
def emptyVariantsProduct : Product :=
  { status := "ACTIVE", vendor := "Gucci", title := "Shoe", descriptionHtml := "",
    productType := "Shoes", tags := [], variants := [], images := [] }

/-! ## Observation helpers (used to state the claims) -/

/-- The value of the first field with a given name (and `none` when no such
field exists), as a JSON consumer reading the Fields array would see it. -/
def fieldValue (fields : List Field) (name : String) : Option String :=
  match fields.find? (fun f => f.Name == name) with
  | some f => f.Value
  | none => none

/-- The stage entry recorded by one `update_stage` call. -/
def stageEntryOf (c : StageCall) : StageEntry :=
  ⟨c.stage, c.now, c.data, c.error⟩

/-- The per-product-id winner of the dedup fold: the event kept by the
`existing is None or ev.timestamp > existing.timestamp` policy, i.e. the
first event in scan order carrying the strictly greatest timestamp among
the events with that product id.  Used only to state and prove the
deduplication claim. -/
def winner (l : List (Nat × WebhookEvent)) (pid : Nat) : Option (Nat × WebhookEvent) :=
  l.foldl (fun acc p =>
    if p.2.pid = some pid then
      match acc with
      | none => some p
      | some q => if pyStrLt q.2.timestamp p.2.timestamp then some p else acc
    else acc) none

/-! # Theorems

Helper lemmas first, then one theorem per specification claim. -/

/-! ## Generic list lemmas -/

theorem filter_find? {α : Type} (l : List α) (p q : α → Bool) :
    (l.filter q).find? p = l.find? (fun a => p a && q a) := by
  induction l with
  | nil => rfl
  | cons a t ih =>
    by_cases hq : q a
    · by_cases hp : p a <;> simp [List.filter_cons, hq, hp, List.find?, ih]
    · simp [List.filter_cons, hq, List.find?, ih]

theorem find?_append {α : Type} (l₁ l₂ : List α) (p : α → Bool) :
    (l₁ ++ l₂).find? p = ((l₁.find? p).or (l₂.find? p)) := by
  induction l₁ with
  | nil => simp
  | cons a t ih =>
    by_cases hp : p a <;> simp [List.find?, hp, ih]

/-! ## Field lookup through SQL overrides (for the price-mapping claim) -/

theorem setFirstField_find_other (fields : List Field) (name n : String) (v : Option String)
    (h : name ≠ n) :
    (setFirstField fields name v).find? (fun f => f.Name == n && f.Value.isSome) =
      fields.find? (fun f => f.Name == n && f.Value.isSome) := by
  induction fields with
  | nil => rfl
  | cons f rest ih =>
    by_cases hf : f.Name == name
    · have hne : (f.Name == n) = false := by
        have : f.Name = name := by simpa using hf
        simp [this, h]
      simp [setFirstField, hf, List.find?, hne]
    · by_cases hn : (f.Name == n && f.Value.isSome)
      · simp [setFirstField, hf, List.find?, hn]
      · simp [setFirstField, hf, List.find?, hn, ih]

theorem applySql_find_other (sql : List (String × Option String)) (fields : List Field)
    (n : String) (h : ∀ kv ∈ sql, kv.1 ≠ n) :
    (applySqlFields fields sql).find? (fun f => f.Name == n && f.Value.isSome) =
      fields.find? (fun f => f.Name == n && f.Value.isSome) := by
  induction sql generalizing fields with
  | nil => rfl
  | cons kv rest ih =>
    have hkv : kv.1 ≠ n := h kv (by simp)
    have hrest : ∀ kv ∈ rest, kv.1 ≠ n := fun kv hm => h kv (by simp [hm])
    have step : applySqlFields fields (kv :: rest) =
        applySqlFields
          (if fields.any (fun f => f.Name == kv.1) then setFirstField fields kv.1 kv.2
           else fields ++ [⟨kv.1, kv.2⟩]) rest := rfl
    rw [step, ih _ hrest]
    by_cases hany : fields.any (fun f => f.Name == kv.1)
    · rw [if_pos hany]
      exact setFirstField_find_other fields kv.1 n kv.2 hkv
    · rw [if_neg hany, find?_append]
      have hbe : (kv.1 == n) = false := beq_eq_false_iff_ne.mpr hkv
      simp [List.find?, hbe]

/-! ## C7: color standardization -/

theorem colorLoop_eq_find (table : List (String × String)) (cl d : String) :
    colorLoop table cl d = ((table.find? (fun kw => containsSub cl kw.1)).map Prod.snd).getD d := by
  induction table with
  | nil => rfl
  | cons kw rest ih =>
    by_cases h : containsSub cl kw.1 <;> simp [colorLoop, List.find?, h, ih]

/-- C7: `_map_color_standard` returns the canonical bucket of the first
keyword in the ordered table that occurs (case-insensitively) as a
substring of the input, and the configured default for empty or unmatched
input; in particular `"Matte Black" ↦ "Black"` and `"" ↦ default`. -/
theorem color_standardization_first_match :
    (∀ s d, map_color_standard s d =
      ((COLOR_STANDARD_KEYWORDS.find? (fun kw => containsSub (pyLower s) kw.1)).map
        Prod.snd).getD d)
    ∧ (∀ s d, COLOR_STANDARD_KEYWORDS.find? (fun kw => containsSub (pyLower s) kw.1) = none →
        map_color_standard s d = d)
    ∧ (∀ d, map_color_standard "" d = d)
    ∧ map_color_standard "Matte Black" "No color" = "Black" := by
  have key : ∀ s d, map_color_standard s d =
      ((COLOR_STANDARD_KEYWORDS.find? (fun kw => containsSub (pyLower s) kw.1)).map
        Prod.snd).getD d := by
    intro s d
    by_cases h : s = ""
    · subst h
      have hnone : COLOR_STANDARD_KEYWORDS.find?
          (fun kw => containsSub (pyLower "") kw.1) = none := by decide
      simp [map_color_standard, hnone]
    · have hb : (s == "") = false := beq_eq_false_iff_ne.mpr h
      simp [map_color_standard, hb, colorLoop_eq_find]
  refine ⟨key, fun s d hn => ?_, fun d => ?_, by decide⟩
  · rw [key, hn]; rfl
  · rw [key]
    have hnone : COLOR_STANDARD_KEYWORDS.find?
        (fun kw => containsSub (pyLower "") kw.1) = none := by decide
    rw [hnone]; rfl

/-- Witness for C7: a concrete unmatched string falls back to the default. -/
theorem color_standardization_first_match_witness :
    map_color_standard "qqq" "No color" = "No color" :=
  color_standardization_first_match.2.1 "qqq" "No color" (by decide)

/-! ## C10: empty variants are handled safely -/

/-- C10: with an empty variants sequence, both the full-payload builder and
the lightweight quantity/price builder return a payload with `SellerSKU`
equal to the empty string and no BuyableProducts. -/
theorem empty_variants_safe (product : Product) (metafields : List Metafield)
    (sql_field_map : List (String × List (String × Option String))) (pct : ℚ)
    (fd : FieldDefaults) (seller_id : String) (h : product.variants = []) :
    (build_bluefly_payload product metafields sql_field_map pct fd seller_id).SellerSKU = "" ∧
    (build_bluefly_payload product metafields sql_field_map pct fd seller_id).BuyableProducts = [] ∧
    (build_quantity_price_payload product metafields pct fd seller_id).SellerSKU = "" ∧
    (build_quantity_price_payload product metafields pct fd seller_id).BuyableProducts = [] := by
  refine ⟨?_, ?_, ?_, ?_⟩ <;> simp [build_bluefly_payload, build_quantity_price_payload, h]

/-- Witness for C10 at a concrete variant-less product. -/
theorem empty_variants_safe_witness :
    (build_bluefly_payload emptyVariantsProduct sampleMetafields [] 0 defaultFieldDefaults
      "5678").SellerSKU = "" ∧
    (build_bluefly_payload emptyVariantsProduct sampleMetafields [] 0 defaultFieldDefaults
      "5678").BuyableProducts = [] ∧
    (build_quantity_price_payload emptyVariantsProduct sampleMetafields 0 defaultFieldDefaults
      "5678").SellerSKU = "" ∧
    (build_quantity_price_payload emptyVariantsProduct sampleMetafields 0 defaultFieldDefaults
      "5678").BuyableProducts = [] :=
  empty_variants_safe emptyVariantsProduct sampleMetafields [] 0 defaultFieldDefaults "5678" rfl

/-! ## C6: the full-payload builder strips null-valued fields -/

/-- C6: no field entry of the full payload has a null value, neither at
product level nor in any BuyableProduct, and in particular an absent
gender metafield never yields a `{"Name": "gender", "Value": null}`
entry. -/
theorem full_payload_strips_nulls (product : Product) (metafields : List Metafield)
    (sql_field_map : List (String × List (String × Option String))) (pct : ℚ)
    (fd : FieldDefaults) (seller_id : String) :
    (∀ f ∈ (build_bluefly_payload product metafields sql_field_map pct fd seller_id).Fields,
      f.Value ≠ none)
    ∧ (∀ bp ∈ (build_bluefly_payload product metafields sql_field_map pct fd
        seller_id).BuyableProducts, ∀ f ∈ bp.Fields, f.Value ≠ none)
    ∧ (get_metafield metafields "custom" "gender" = none →
        Field.mk "gender" none ∉
          (build_bluefly_payload product metafields sql_field_map pct fd seller_id).Fields) := by
  have h1 : ∀ f ∈ (build_bluefly_payload product metafields sql_field_map pct fd
      seller_id).Fields, f.Value ≠ none := by
    intro f hf
    have : f.Value.isSome := (List.mem_filter.mp hf).2
    exact Option.ne_none_iff_isSome.mpr this
  refine ⟨h1, ?_, ?_⟩
  · intro bp hbp f hf
    simp only [build_bluefly_payload, List.mem_map] at hbp
    obtain ⟨variant, _, hbp⟩ := hbp
    rw [← hbp] at hf
    have : f.Value.isSome := (List.mem_filter.mp hf).2
    exact Option.ne_none_iff_isSome.mpr this
  · intro _ hmem
    exact h1 _ hmem rfl

/-- Witness for C6: the sample product (whose metafields carry no gender)
produces no null-valued gender entry. -/
theorem full_payload_strips_nulls_witness :
    Field.mk "gender" none ∉
      (build_bluefly_payload sampleProduct sampleMetafields [] 0 defaultFieldDefaults
        "5678").Fields :=
  (full_payload_strips_nulls sampleProduct sampleMetafields [] 0 defaultFieldDefaults
    "5678").2.2 (by decide)

/-! ## C2: price and special-price mapping -/

theorem fieldValue_filter (l : List Field) (n : String) :
    fieldValue (l.filter (fun f => f.Value.isSome)) n =
      match l.find? (fun f => f.Name == n && f.Value.isSome) with
      | some f => f.Value
      | none => none := by
  unfold fieldValue
  rw [filter_find?]

/-- C2: in the built buyable product (after the full builder's null
stripping), `price` carries the 2-decimal compare-at price unadjusted and
`special_price` the adjusted selling price; without a compare-at price,
`price` carries the adjusted selling price and `special_price` is absent.
`adjust_price` behaves as `p * (1 + pct/100)` rounded to 2 decimals with
`None` passed through. -/
theorem price_special_price_mapping :
    (∀ (variant : Variant) (imgs : List ImageRec) (sql : List (String × Option String))
        (status : String) (mfs : List Metafield) (pct : ℚ) (fd : FieldDefaults)
        (sid : String) (prod : Option Product),
      (∀ kv ∈ sql, kv.1 ≠ "price" ∧ kv.1 ≠ "special_price") →
      (match variant.compareAtPrice with
       | some ca =>
         fieldValue ((map_variant_to_buyable variant imgs sql status mfs pct fd sid
             prod).Fields.filter (fun f => f.Value.isSome)) "price" =
           format_price (adjust_price (some ca) 0) ∧
         fieldValue ((map_variant_to_buyable variant imgs sql status mfs pct fd sid
             prod).Fields.filter (fun f => f.Value.isSome)) "special_price" =
           format_price (adjust_price variant.price pct)
       | none =>
         fieldValue ((map_variant_to_buyable variant imgs sql status mfs pct fd sid
             prod).Fields.filter (fun f => f.Value.isSome)) "price" =
           format_price (adjust_price variant.price pct) ∧
         fieldValue ((map_variant_to_buyable variant imgs sql status mfs pct fd sid
             prod).Fields.filter (fun f => f.Value.isSome)) "special_price" = none))
    ∧ adjust_price (some 100) 10 = some 110
    ∧ adjust_price (some 100) 0 = some 100
    ∧ (∀ pct, adjust_price none pct = none) := by
  refine ⟨?_, ?_, ?_, fun pct => rfl⟩
  · intro variant imgs sql status mfs pct fd sid prod hsql
    have hp : ∀ kv ∈ sql, kv.1 ≠ "price" := fun kv hm => (hsql kv hm).1
    have hs : ∀ kv ∈ sql, kv.1 ≠ "special_price" := fun kv hm => (hsql kv hm).2
    rcases hca : variant.compareAtPrice with _ | ca <;>
      simp only [hca] <;>
      refine ⟨?_, ?_⟩ <;>
        rcases hpr : variant.price with _ | p <;>
          simp only [map_variant_to_buyable, hca, hpr] <;>
          first
            | (rw [fieldValue_filter, applySql_find_other _ _ _ hp]; rfl)
            | (rw [fieldValue_filter, applySql_find_other _ _ _ hs]; rfl)
  · norm_num [adjust_price, pyRound, roundHalfEven]
  · norm_num [adjust_price, pyRound, roundHalfEven]

/-- Witness for C2: with compare-at 120, price 100 and a 10% adjustment the
buyable product carries price `120.00` and special price `110.00`. -/
theorem price_special_price_mapping_witness :
    fieldValue ((map_variant_to_buyable priceWitnessVariant [] [] "ACTIVE" [] 10
      defaultFieldDefaults "" none).Fields.filter (fun f => f.Value.isSome)) "price" =
        some "120.00" ∧
    fieldValue ((map_variant_to_buyable priceWitnessVariant [] [] "ACTIVE" [] 10
      defaultFieldDefaults "" none).Fields.filter (fun f => f.Value.isSome)) "special_price" =
        some "110.00" := by
  have h := price_special_price_mapping.1 priceWitnessVariant [] [] "ACTIVE" [] 10
    defaultFieldDefaults "" none (by simp)
  have hpv : priceWitnessVariant.price = some 100 := rfl
  have k1 : format_price (adjust_price (some (120 : ℚ)) 0) = some "120.00" := by
    have h0 : adjust_price (some (120 : ℚ)) 0 = some 120 := by
      norm_num [adjust_price, pyRound, roundHalfEven]
    have h2 : roundHalfEven ((120 : ℚ) * 10 ^ 2) = 12000 := by
      norm_num [roundHalfEven]
    rw [h0]
    simp only [format_price, Option.map, formatFixed, h2]
    decide
  have k2 : format_price (adjust_price (some (100 : ℚ)) 10) = some "110.00" := by
    have h0 : adjust_price (some (100 : ℚ)) 10 = some 110 := price_special_price_mapping.2.1
    have h2 : roundHalfEven ((110 : ℚ) * 10 ^ 2) = 11000 := by
      norm_num [roundHalfEven]
    rw [h0]
    simp only [format_price, Option.map, formatFixed, h2]
    decide
  rw [hpv] at h
  exact ⟨h.1.trans k1, h.2.trans k2⟩

/-! ## C8: status validation rejects unknown statuses before any write -/

/-- C8: `update_status` fails exactly when the new status is outside the
webhook-log status enum, and an invalid status leaves the persisted store
untouched; `update_stage` behaves the same against the pipeline enum. -/
theorem status_validation_atomic
    (store : List (String × TxRecord)) (file_path new_status now : String) (r : TxRecord)
    (hr : store.lookup file_path = some r)
    (jstore : List (String × PipelineJob)) (job_path stage : String) (job : PipelineJob)
    (hj : jstore.lookup job_path = some job) (data err : Option String) :
    ((update_status store file_path new_status now).2.isOk ↔ new_status ∈ STATUSES)
    ∧ (new_status ∉ STATUSES → (update_status store file_path new_status now).1 = store)
    ∧ ((update_stage_store jstore job_path stage data err now).2.isOk ↔
        stage ∈ PIPELINE_STATUSES)
    ∧ (stage ∉ PIPELINE_STATUSES →
        (update_stage_store jstore job_path stage data err now).1 = jstore) := by
  refine ⟨?_, ?_, ?_, ?_⟩
  · by_cases h : new_status ∈ STATUSES
    · simp [update_status, h, hr, Except.isOk, Except.toBool]
    · simp [update_status, h, Except.isOk, Except.toBool]
  · intro h
    simp [update_status, h]
  · by_cases h : stage ∈ PIPELINE_STATUSES
    · simp [update_stage_store, update_stage, h, hj, Except.isOk, Except.toBool]
    · simp [update_stage_store, h, Except.isOk, Except.toBool]
  · intro h
    simp [update_stage_store, h]

/-- Witness for C8: a store holding one record accepts `processed` and
rejects the unknown status `bogus` without modifying the store. -/
theorem status_validation_atomic_witness :
    ((update_status [("logs/a.json", ⟨"unread", none, "products/update", "{}"⟩)]
        "logs/a.json" "processed" "t1").2.isOk ↔ "processed" ∈ STATUSES)
    ∧ ("bogus" ∉ STATUSES →
        (update_status [("logs/a.json", ⟨"unread", none, "products/update", "{}"⟩)]
          "logs/a.json" "bogus" "t1").1 =
          [("logs/a.json", ⟨"unread", none, "products/update", "{}"⟩)]) := by
  constructor
  · exact (status_validation_atomic [("logs/a.json", ⟨"unread", none, "products/update", "{}"⟩)]
      "logs/a.json" "processed" "t1" ⟨"unread", none, "products/update", "{}"⟩ (by decide)
      [("p/j.json", create_job "logs/a.json" "products/update" "42" "e1" "t0")]
      "p/j.json" "queued" (create_job "logs/a.json" "products/update" "42" "e1" "t0")
      (by decide) none none).1
  · exact fun _ => (status_validation_atomic
      [("logs/a.json", ⟨"unread", none, "products/update", "{}"⟩)]
      "logs/a.json" "bogus" "t1" ⟨"unread", none, "products/update", "{}"⟩ (by decide)
      [("p/j.json", create_job "logs/a.json" "products/update" "42" "e1" "t0")]
      "p/j.json" "queued" (create_job "logs/a.json" "products/update" "42" "e1" "t0")
      (by decide) none none).2.1 (by decide)

/-! ## C5: pipeline job stages are append-only and status mirrors the last
stage -/

theorem runStages_spec (calls : List StageCall) :
    ∀ job : PipelineJob, (∀ c ∈ calls, c.stage ∈ PIPELINE_STATUSES) →
      ∃ j, runStages job calls = Except.ok j ∧
        j.stages = job.stages ++ calls.map stageEntryOf ∧
        (job.status = (job.stages.getLastD ⟨"", "", none, none⟩).stage →
          j.status = (j.stages.getLastD ⟨"", "", none, none⟩).stage) := by
  induction calls with
  | nil => intro job _; exact ⟨job, rfl, by simp, fun h => h⟩
  | cons c rest ih =>
    intro job hv
    have hc : c.stage ∈ PIPELINE_STATUSES := hv c (by simp)
    have hstep : update_stage job c.stage c.data c.error c.now =
        Except.ok
          { job with
            status := c.stage,
            stages := job.stages ++ [stageEntryOf c],
            error := match c.error with
              | some e => if e == "" then job.error else some e
              | none => job.error } := by
      simp [update_stage, hc, stageEntryOf]
    obtain ⟨j, hrun, hstages, hstatus⟩ := ih _ (fun c hm => hv c (by simp [hm]))
    refine ⟨j, ?_, ?_, fun _ => ?_⟩
    · simpa [runStages, hstep] using hrun
    · simp at hstages
      simp [hstages, stageEntryOf]
    · apply hstatus
      simp [stageEntryOf]

/-- C5: starting from `create_job` and applying any sequence of
`update_stage` calls with valid stage names, the stage history only grows
by appending the recorded entries in order, and the job's top-level status
always equals the last-appended stage's name. -/
theorem job_stages_append_only (source_file topic product_id event_id now : String)
    (calls : List StageCall) (hv : ∀ c ∈ calls, c.stage ∈ PIPELINE_STATUSES) :
    ∃ j, runStages (create_job source_file topic product_id event_id now) calls =
        Except.ok j ∧
      j.stages = (create_job source_file topic product_id event_id now).stages ++
        calls.map stageEntryOf ∧
      j.status = (j.stages.getLastD ⟨"", "", none, none⟩).stage := by
  obtain ⟨j, hrun, hstages, hstatus⟩ :=
    runStages_spec calls (create_job source_file topic product_id event_id now) hv
  exact ⟨j, hrun, hstages, hstatus (by simp [create_job])⟩

/-- Witness for C5: the nominal enrich→map→push stage sequence appends five
entries and leaves the status at `pushed`. -/
theorem job_stages_append_only_witness :
    ∃ j, runStages (create_job "logs/a.json" "products/update" "42" "e1" "t0")
        [⟨"enriching", none, none, "t1"⟩, ⟨"enriched", none, none, "t2"⟩,
         ⟨"mapping", none, none, "t3"⟩, ⟨"pushing", none, none, "t4"⟩,
         ⟨"pushed", none, none, "t5"⟩] = Except.ok j ∧
      j.stages = (create_job "logs/a.json" "products/update" "42" "e1" "t0").stages ++
        [⟨"enriching", "t1", none, none⟩, ⟨"enriched", "t2", none, none⟩,
         ⟨"mapping", "t3", none, none⟩, ⟨"pushing", "t4", none, none⟩,
         ⟨"pushed", "t5", none, none⟩] ∧
      j.status = (j.stages.getLastD ⟨"", "", none, none⟩).stage :=
  job_stages_append_only "logs/a.json" "products/update" "42" "e1" "t0"
    [⟨"enriching", none, none, "t1"⟩, ⟨"enriched", none, none, "t2"⟩,
     ⟨"mapping", none, none, "t3"⟩, ⟨"pushing", none, none, "t4"⟩,
     ⟨"pushed", none, none, "t5"⟩] (by decide)

/-! ## C3: structured SKU derivation -/

theorem str_append_ne_empty (x y : String) (h : x ≠ "") : x ++ y ≠ "" := by
  intro hc
  apply h
  have hl := congrArg String.length hc
  rw [String.length_append] at hl
  have h0 : ("" : String).length = 0 := rfl
  have hx : x.length = 0 := by omega
  cases x with
  | mk data =>
    cases data with
    | nil => rfl
    | cons c cs => simp [String.length] at hx

theorem pyJoin_cons (sep x : String) (l : List String) (h : l ≠ []) :
    pyJoin sep (x :: l) = x ++ sep ++ pyJoin sep l := by
  cases l with
  | nil => exact absurd rfl h
  | cons y rest => rfl

theorem pyJoin_ne_empty (sep : String) (xs : List String) (hne : xs ≠ [])
    (h : ∀ x ∈ xs, x ≠ "") : pyJoin sep xs ≠ "" := by
  cases xs with
  | nil => exact absurd rfl hne
  | cons x rest =>
    cases rest with
    | nil => exact h x (by simp)
    | cons y t =>
      exact str_append_ne_empty _ _ (str_append_ne_empty _ _ (h x (by simp)))

theorem pyJoin_append (sep : String) (xs ys : List String) (hxs : xs ≠ []) (hys : ys ≠ []) :
    pyJoin sep (xs ++ ys) = pyJoin sep xs ++ sep ++ pyJoin sep ys := by
  induction xs with
  | nil => exact absurd rfl hxs
  | cons x rest ih =>
    cases hr : rest with
    | nil =>
      subst hr
      simpa using pyJoin_cons sep x ys hys
    | cons y t =>
      rw [← hr]
      have hrne : rest ≠ [] := by simp [hr]
      have happ : rest ++ ys ≠ [] := by simp [hr]
      rw [List.cons_append, pyJoin_cons sep x (rest ++ ys) happ, ih hrne,
        pyJoin_cons sep x rest hrne]
      simp [String.append_assoc]

theorem join_nest (B D : List String) (hB : ∀ x ∈ B, x ≠ "") :
    pyJoin "-" ((pyJoin "-" B :: D).filter (fun s => s != "")) =
    pyJoin "-" (B ++ D.filter (fun s => s != "")) := by
  cases hBe : B with
  | nil =>
    subst hBe
    simp [pyJoin, List.filter]
  | cons b bs =>
    rw [← hBe]
    have hBne : B ≠ [] := by simp [hBe]
    have hj : pyJoin "-" B ≠ "" := pyJoin_ne_empty "-" B hBne hB
    have hjb : (pyJoin "-" B != "") = true := by simpa using hj
    rw [List.filter_cons, if_pos hjb]
    cases hD : D.filter (fun s => s != "") with
    | nil => simp [pyJoin]
    | cons d ds =>
      rw [← hD]
      have hDne : D.filter (fun s => s != "") ≠ [] := by simp [hD]
      rw [pyJoin_cons "-" _ _ hDne, pyJoin_append "-" B _ hBne hDne]

theorem join_flatten (a g t cs sk cc : String) :
    pyJoin "-" ((pyJoin "-" (([a, g, t].filter (fun p => p != "")) ++
        (if cs != "" then ["in-" ++ cs] else [])) :: [sk, cc]).filter (fun p => p != "")) =
    pyJoin "-" ([a, g, t, if cs == "" then "" else "in-" ++ cs, sk, cc].filter
        (fun p => p != "")) := by
  have hP : ∀ x ∈ ([a, g, t].filter (fun p => p != "")) ++
      (if cs != "" then ["in-" ++ cs] else []), x ≠ "" := by
    intro x hx
    rcases List.mem_append.mp hx with h1 | h2
    · have hb := (List.mem_filter.mp h1).2
      simpa using hb
    · by_cases h : cs = ""
      · simp [h] at h2
      · have : (cs != "") = true := by simpa using h
        rw [if_pos this] at h2
        simp at h2
        subst h2
        exact str_append_ne_empty "in-" cs (by decide)
  rw [join_nest _ _ hP]
  congr 1
  have hsplit : ([a, g, t, (if cs == "" then "" else "in-" ++ cs), sk, cc] : List String) =
      [a, g, t] ++ [if cs == "" then "" else "in-" ++ cs] ++ [sk, cc] := rfl
  rw [hsplit, List.filter_append, List.filter_append]
  congr 1
  congr 1
  by_cases hcs : cs = ""
  · subst hcs
    simp
  · have h1 : (cs != "") = true := by simpa using hcs
    have h2 : (cs == "") = false := by simpa using hcs
    have h3 : (("in-" ++ cs) != "") = true := by
      simpa using str_append_ne_empty "in-" cs (by decide)
    simp only [if_pos h1, h2, Bool.false_eq_true, if_false, List.filter, h3]

/-- C3: with a seller id and product context the derived SellerSKU is the
hyphen-join of the claimed six segments with empty segments omitted;
without full context it is the bare variant SKU, which itself falls back
to `SHOPIFY-{numericId}` when the stripped variant SKU is blank. -/
theorem sku_derivation (variant : Variant) (seller_id : String) (product : Product)
    (metafields : List Metafield) (hsid : seller_id ≠ "") :
    derive_sku variant seller_id (some product) metafields =
      derive_sku_claim variant seller_id product metafields
    ∧ (∀ (v : Variant) (sid : String) (mfs : List Metafield), derive_sku v sid none mfs =
        bareVariantSku v)
    ∧ (∀ (v : Variant) (p : Product) (mfs : List Metafield), derive_sku v "" (some p) mfs =
        bareVariantSku v)
    ∧ (∀ v : Variant, pyStrip (v.sku.getD "") ≠ "" →
        bareVariantSku v = pyStrip (v.sku.getD ""))
    ∧ (∀ v : Variant, pyStrip (v.sku.getD "") = "" → lastSeg v.id ≠ "" →
        bareVariantSku v = "SHOPIFY-" ++ lastSeg v.id) := by
  refine ⟨?_, fun v sid mfs => rfl, fun v p mfs => rfl, ?_, ?_⟩
  · have hb : (seller_id == "") = false := beq_eq_false_iff_ne.mpr hsid
    simp only [derive_sku, derive_sku_claim, hb, Bool.false_eq_true, if_false]
    exact join_flatten _ _ _ _ _ _
  · intro v h
    have hb : (pyStrip (v.sku.getD "") == "") = false := beq_eq_false_iff_ne.mpr h
    simp [bareVariantSku, hb]
  · intro v h1 h2
    have hb : (lastSeg v.id != "") = true := by simpa using h2
    simp [bareVariantSku, h1, hb]

/-- Witness for C3: the source docstring's own example,
`brunello-cucinelli-mens-shoes-in-brown-bc123-c8456`. -/
theorem sku_derivation_witness :
    derive_sku
      { id := "gid://shopify/ProductVariant/12348456", sku := some "BC123",
        title := "Brown", price := none, compareAtPrice := none, barcode := none,
        inventoryQuantity := 3, selectedOptions := [⟨"Color", "Brown"⟩], image := none,
        weight := none }
      "vpid-789"
      (some { status := "ACTIVE", vendor := "Brunello Cucinelli", title := "Loafer",
              descriptionHtml := "", productType := "Shoes", tags := ["mens"],
              variants := [], images := [] })
      [⟨"custom", "gender", some "mens"⟩] =
    derive_sku_claim
      { id := "gid://shopify/ProductVariant/12348456", sku := some "BC123",
        title := "Brown", price := none, compareAtPrice := none, barcode := none,
        inventoryQuantity := 3, selectedOptions := [⟨"Color", "Brown"⟩], image := none,
        weight := none }
      "vpid-789"
      { status := "ACTIVE", vendor := "Brunello Cucinelli", title := "Loafer",
        descriptionHtml := "", productType := "Shoes", tags := ["mens"],
        variants := [], images := [] }
      [⟨"custom", "gender", some "mens"⟩] ∧
    derive_sku_claim
      { id := "gid://shopify/ProductVariant/12348456", sku := some "BC123",
        title := "Brown", price := none, compareAtPrice := none, barcode := none,
        inventoryQuantity := 3, selectedOptions := [⟨"Color", "Brown"⟩], image := none,
        weight := none }
      "vpid-789"
      { status := "ACTIVE", vendor := "Brunello Cucinelli", title := "Loafer",
        descriptionHtml := "", productType := "Shoes", tags := ["mens"],
        variants := [], images := [] }
      [⟨"custom", "gender", some "mens"⟩] =
      "brunello-cucinelli-mens-shoes-in-brown-bc123-c8456" :=
  ⟨(sku_derivation _ "vpid-789" _ _ (by decide)).1, by decide⟩

/-! ## C4: deduplication keeps exactly the latest event per product id -/

theorem listStrLt_irrefl : ∀ l : List Char, listStrLt l l = false
  | [] => rfl
  | c :: cs => by simp [listStrLt, listStrLt_irrefl cs]

theorem listStrLt_trans : ∀ (a b c : List Char), listStrLt a b = true →
    listStrLt b c = true → listStrLt a c = true
  | _, [], [], _, h2 => by simp [listStrLt] at h2
  | _, _ :: _, [], _, h2 => by simp [listStrLt] at h2
  | [], [], _ :: _, h1, _ => by simp [listStrLt] at h1
  | [], _ :: _, _ :: _, _, _ => rfl
  | _ :: _, [], _ :: _, h1, _ => by simp [listStrLt] at h1
  | a :: as, b :: bs, c :: cs, h1, h2 => by
    simp only [listStrLt] at h1 h2 ⊢
    by_cases hab : a.toNat < b.toNat
    · by_cases hbc : b.toNat < c.toNat
      · rw [if_pos (Nat.lt_trans hab hbc)]
      · rw [if_neg hbc] at h2
        by_cases hcb : c.toNat < b.toNat
        · rw [if_pos hcb] at h2
          exact absurd h2 (by simp)
        · rw [if_pos (by omega : a.toNat < c.toNat)]
    · rw [if_neg hab] at h1
      by_cases hba : b.toNat < a.toNat
      · rw [if_pos hba] at h1
        exact absurd h1 (by simp)
      · rw [if_neg hba] at h1
        by_cases hbc : b.toNat < c.toNat
        · rw [if_pos hbc] at h2
          rw [if_pos (by omega : a.toNat < c.toNat)]
        · rw [if_neg hbc] at h2
          by_cases hcb : c.toNat < b.toNat
          · rw [if_pos hcb] at h2
            exact absurd h2 (by simp)
          · rw [if_neg hcb] at h2
            rw [if_neg (by omega : ¬ a.toNat < c.toNat),
              if_neg (by omega : ¬ c.toNat < a.toNat)]
            exact listStrLt_trans as bs cs h1 h2

theorem listStrLt_total : ∀ (a b : List Char), a ≠ b →
    listStrLt a b = true ∨ listStrLt b a = true
  | [], [], h => absurd rfl h
  | [], _ :: _, _ => Or.inl rfl
  | _ :: _, [], _ => Or.inr rfl
  | a :: as, b :: bs, h => by
    by_cases hab : a.toNat < b.toNat
    · left
      simp [listStrLt, hab]
    · by_cases hba : b.toNat < a.toNat
      · right
        simp [listStrLt, hba]
      · have hn : a.toNat = b.toNat := by omega
        have hv : a = b := Char.ext (UInt32.ext hn)
        subst hv
        have htl : as ≠ bs := fun hc => h (by rw [hc])
        rcases listStrLt_total as bs htl with ht | ht
        · left
          simp [listStrLt, Nat.lt_irrefl, ht]
        · right
          simp [listStrLt, Nat.lt_irrefl, ht]

/-- Python string order: irreflexive. -/
theorem pyStrLt_irrefl (a : String) : pyStrLt a a = false :=
  listStrLt_irrefl a.toList

/-- Python string order: transitive. -/
theorem pyStrLt_trans (a b c : String) (h1 : pyStrLt a b = true) (h2 : pyStrLt b c = true) :
    pyStrLt a c = true :=
  listStrLt_trans a.toList b.toList c.toList h1 h2

/-- Python string order: total on distinct strings. -/
theorem pyStrLt_total (a b : String) (h : a ≠ b) :
    pyStrLt a b = true ∨ pyStrLt b a = true :=
  listStrLt_total a.toList b.toList
    (fun hc => h (congrArg String.mk hc))

theorem withIdx_mem_snd {α : Type} : ∀ (n : Nat) (l : List α) (i : Nat) (a : α),
    (i, a) ∈ withIdx n l → a ∈ l
  | _, [], _, _, h => by simp [withIdx] at h
  | n, b :: t, i, a, h => by
    simp only [withIdx, List.mem_cons] at h
    rcases h with h | h
    · rw [Prod.mk.injEq] at h
      simp [h.2]
    · exact List.mem_cons_of_mem b (withIdx_mem_snd (n + 1) t i a h)

theorem withIdx_mem_ge {α : Type} : ∀ (n : Nat) (l : List α) (i : Nat) (a : α),
    (i, a) ∈ withIdx n l → n ≤ i
  | _, [], _, _, h => by simp [withIdx] at h
  | n, b :: t, i, a, h => by
    simp only [withIdx, List.mem_cons] at h
    rcases h with h | h
    · rw [Prod.mk.injEq] at h
      omega
    · have := withIdx_mem_ge (n + 1) t i a h
      omega

theorem withIdx_inj {α : Type} : ∀ (n : Nat) (l : List α) (i : Nat) (a b : α),
    (i, a) ∈ withIdx n l → (i, b) ∈ withIdx n l → a = b
  | _, [], _, _, _, ha, _ => by simp [withIdx] at ha
  | n, c :: t, i, a, b, ha, hb => by
    simp only [withIdx, List.mem_cons] at ha hb
    rcases ha with ha | ha <;> rcases hb with hb | hb
    · rw [Prod.mk.injEq] at ha hb
      rw [ha.2, hb.2]
    · rw [Prod.mk.injEq] at ha
      have := withIdx_mem_ge (n + 1) t i b hb
      omega
    · rw [Prod.mk.injEq] at hb
      have := withIdx_mem_ge (n + 1) t i a ha
      omega
    · exact withIdx_inj (n + 1) t i a b ha hb

theorem withIdx_complete {α : Type} : ∀ (n : Nat) (l : List α) (a : α), a ∈ l →
    ∃ i, (i, a) ∈ withIdx n l
  | _, [], _, h => by simp at h
  | n, b :: t, a, h => by
    rcases List.mem_cons.mp h with h | h
    · exact ⟨n, by simp [withIdx, h]⟩
    · obtain ⟨i, hi⟩ := withIdx_complete (n + 1) t a h
      exact ⟨i, by simp [withIdx, hi]⟩

theorem assocSet_lookup_self {α : Type} (k : Nat) (v : α) (acc : List (Nat × α)) :
    (assocSet k v acc).lookup k = some v := by
  induction acc with
  | nil => simp [assocSet, List.lookup]
  | cons kv t ih =>
    by_cases h : kv.1 = k
    · simp [assocSet, h, List.lookup]
    · have hbe : (k == kv.1) = false := beq_eq_false_iff_ne.mpr (Ne.symm h)
      simp [assocSet, h, List.lookup, hbe, ih]

theorem assocSet_lookup_other {α : Type} (k : Nat) (v : α) (k' : Nat) (h : k' ≠ k)
    (acc : List (Nat × α)) : (assocSet k v acc).lookup k' = acc.lookup k' := by
  induction acc with
  | nil =>
    have hbe : (k' == k) = false := beq_eq_false_iff_ne.mpr h
    simp [assocSet, List.lookup, hbe]
  | cons kv t ih =>
    by_cases hk : kv.1 = k
    · have hbe : (k' == k) = false := beq_eq_false_iff_ne.mpr h
      have hbe2 : (k' == kv.1) = false := by rw [hk]; exact hbe
      simp [assocSet, hk, List.lookup, hbe, hbe2]
    · by_cases hk' : k' = kv.1
      · simp [assocSet, hk, List.lookup, hk', ih]
      · have hbe : (k' == kv.1) = false := beq_eq_false_iff_ne.mpr hk'
        simp [assocSet, hk, List.lookup, hbe, ih]

theorem assocSet_keys_mem {α : Type} (k : Nat) (v : α) (acc : List (Nat × α)) (k' : Nat) :
    k' ∈ (assocSet k v acc).map Prod.fst ↔ (k' = k ∨ k' ∈ acc.map Prod.fst) := by
  induction acc with
  | nil => simp [assocSet]
  | cons kv t ih =>
    by_cases h : kv.1 = k
    · simp [assocSet, h]
    · simp only [assocSet, h, if_false, List.map_cons, List.mem_cons, ih]
      tauto

theorem assocSet_keys_nodup {α : Type} (k : Nat) (v : α) (acc : List (Nat × α))
    (h : (acc.map Prod.fst).Nodup) : ((assocSet k v acc).map Prod.fst).Nodup := by
  induction acc with
  | nil => simp [assocSet]
  | cons kv t ih =>
    simp only [List.map_cons, List.nodup_cons] at h
    by_cases hk : kv.1 = k
    · simp only [assocSet, hk, if_true, List.map_cons, List.nodup_cons]
      exact ⟨by rw [← hk]; exact h.1, h.2⟩
    · simp only [assocSet, hk, if_false, List.map_cons, List.nodup_cons]
      refine ⟨?_, ih h.2⟩
      rw [assocSet_keys_mem]
      rintro (hc | hc)
      · exact hk hc
      · exact h.1 hc

theorem lookup_eq_some_iff_mem {α : Type} (acc : List (Nat × α))
    (h : (acc.map Prod.fst).Nodup) (k : Nat) (v : α) :
    acc.lookup k = some v ↔ (k, v) ∈ acc := by
  induction acc with
  | nil => simp [List.lookup]
  | cons kv t ih =>
    simp only [List.map_cons, List.nodup_cons] at h
    by_cases hk : k = kv.1
    · have hbe : (k == kv.1) = true := beq_iff_eq.mpr hk
      simp only [List.lookup, hbe, List.mem_cons]
      constructor
      · intro hv
        left
        have hv2 : v = kv.2 := by simpa using hv.symm
        rw [hk, hv2]
      · rintro (hc | hc)
        · subst hc
          rfl
        · exfalso
          apply h.1
          rw [← hk]
          exact List.mem_map.mpr ⟨(k, v), hc, rfl⟩
    · have hbe : (k == kv.1) = false := beq_eq_false_iff_ne.mpr hk
      simp only [List.lookup, hbe, List.mem_cons]
      rw [ih h.2]
      constructor
      · exact fun hc => Or.inr hc
      · rintro (hc | hc)
        · subst hc
          exact absurd rfl hk
        · exact hc

theorem dedupStep_none (acc : List (Nat × Nat × WebhookEvent)) (p : Nat × WebhookEvent)
    (hp : p.2.pid = none) : dedupStep acc p = acc := by
  unfold dedupStep
  rw [hp]

theorem dedupStep_some (acc : List (Nat × Nat × WebhookEvent)) (p : Nat × WebhookEvent)
    (pid : Nat) (hp : p.2.pid = some pid) :
    dedupStep acc p =
      (match acc.lookup pid with
       | none => assocSet pid p acc
       | some q => if pyStrLt q.2.timestamp p.2.timestamp then assocSet pid p acc
                   else acc) := by
  unfold dedupStep
  rw [hp]

theorem dedup_fold_keys_nodup (l : List (Nat × WebhookEvent)) :
    ((l.foldl dedupStep []).map Prod.fst).Nodup := by
  induction l using List.reverseRecOn with
  | nil => simp
  | append_singleton l p ih =>
    rw [List.foldl_append]
    simp only [List.foldl_cons, List.foldl_nil]
    rcases hp : p.2.pid with _ | pid
    · rw [dedupStep_none _ _ hp]
      exact ih
    · rw [dedupStep_some _ _ pid hp]
      rcases hwl : (List.foldl dedupStep [] l).lookup pid with _ | q
      · exact assocSet_keys_nodup _ _ _ ih
      · dsimp only
        by_cases hq : pyStrLt q.2.timestamp p.2.timestamp = true
        · rw [if_pos hq]
          exact assocSet_keys_nodup _ _ _ ih
        · rw [if_neg hq]
          exact ih

theorem winner_append_singleton (l : List (Nat × WebhookEvent)) (p : Nat × WebhookEvent)
    (pid : Nat) :
    winner (l ++ [p]) pid =
      (if p.2.pid = some pid then
        match winner l pid with
        | none => some p
        | some q => if pyStrLt q.2.timestamp p.2.timestamp then some p else winner l pid
      else winner l pid) := by
  unfold winner
  rw [List.foldl_append]
  rfl

theorem dedup_fold_lookup (l : List (Nat × WebhookEvent)) (pid : Nat) :
    (l.foldl dedupStep []).lookup pid = winner l pid := by
  induction l using List.reverseRecOn with
  | nil => rfl
  | append_singleton l p ih =>
    rw [List.foldl_append, winner_append_singleton]
    simp only [List.foldl_cons, List.foldl_nil]
    rcases hp : p.2.pid with _ | pid'
    · rw [dedupStep_none _ _ hp, ih]
      simp
    · rw [dedupStep_some _ _ pid' hp]
      by_cases hpid : pid' = pid
      · subst hpid
        rw [if_pos rfl, ih]
        rcases hwl : winner l pid' with _ | q
        · exact assocSet_lookup_self pid' p _
        · dsimp only
          by_cases hq : pyStrLt q.2.timestamp p.2.timestamp = true
          · rw [if_pos hq, if_pos hq]
            exact assocSet_lookup_self pid' p _
          · rw [if_neg hq, if_neg hq]
            exact ih.trans hwl
      · have hne : ¬ ((some pid' : Option Nat) = some pid) := by simpa using hpid
        rw [if_neg hne]
        rcases hwl : (List.foldl dedupStep [] l).lookup pid' with _ | q
        · rw [assocSet_lookup_other pid' p pid (fun h => hpid h.symm) _]
          exact ih
        · dsimp only
          by_cases hq : pyStrLt q.2.timestamp p.2.timestamp = true
          · rw [if_pos hq, assocSet_lookup_other pid' p pid (fun h => hpid h.symm) _]
            exact ih
          · rw [if_neg hq]
            exact ih

theorem winner_mem (l : List (Nat × WebhookEvent)) (pid : Nat) (q : Nat × WebhookEvent)
    (h : winner l pid = some q) : q ∈ l ∧ q.2.pid = some pid := by
  induction l using List.reverseRecOn with
  | nil => simp [winner] at h
  | append_singleton l p ih =>
    rw [winner_append_singleton] at h
    by_cases hp : p.2.pid = some pid
    · rw [if_pos hp] at h
      rcases hwl : winner l pid with _ | q'
      · rw [hwl] at h
        simp only [Option.some.injEq] at h
        subst h
        exact ⟨by simp, hp⟩
      · rw [hwl] at h
        dsimp only at h
        by_cases hq : pyStrLt q'.2.timestamp p.2.timestamp = true
        · rw [if_pos hq] at h
          simp only [Option.some.injEq] at h
          subst h
          exact ⟨by simp, hp⟩
        · rw [if_neg hq] at h
          simp only [Option.some.injEq] at h
          subst h
          obtain ⟨hm, hpid⟩ := ih hwl
          exact ⟨by simp [hm], hpid⟩
    · rw [if_neg hp] at h
      obtain ⟨hm, hpid⟩ := ih h
      exact ⟨by simp [hm], hpid⟩

theorem winner_none (l : List (Nat × WebhookEvent)) (pid : Nat)
    (h : winner l pid = none) : ∀ q ∈ l, q.2.pid ≠ some pid := by
  induction l using List.reverseRecOn with
  | nil => simp
  | append_singleton l p ih =>
    rw [winner_append_singleton] at h
    by_cases hp : p.2.pid = some pid
    · exfalso
      rw [if_pos hp] at h
      rcases hwl : winner l pid with _ | q'
      · rw [hwl] at h
        simp at h
      · rw [hwl] at h
        dsimp only at h
        by_cases hq : pyStrLt q'.2.timestamp p.2.timestamp = true
        · rw [if_pos hq] at h
          simp at h
        · rw [if_neg hq] at h
          simp at h
    · rw [if_neg hp] at h
      intro q hq
      rcases List.mem_append.mp hq with hm | hm
      · exact ih h q hm
      · simp only [List.mem_singleton] at hm
        subst hm
        exact hp

theorem winner_max (l : List (Nat × WebhookEvent)) (pid : Nat) :
    ∀ q, winner l pid = some q →
      ∀ r ∈ l, r.2.pid = some pid → pyStrLt q.2.timestamp r.2.timestamp = false := by
  induction l using List.reverseRecOn with
  | nil => intro q h; simp [winner] at h
  | append_singleton l p ih =>
    intro q h r hr hrpid
    rw [winner_append_singleton] at h
    by_cases hp : p.2.pid = some pid
    · rw [if_pos hp] at h
      rcases hwl : winner l pid with _ | q'
      · rw [hwl] at h
        simp only [Option.some.injEq] at h
        subst h
        rcases List.mem_append.mp hr with hm | hm
        · exact absurd hrpid (winner_none l pid hwl r hm)
        · simp only [List.mem_singleton] at hm
          subst hm
          exact pyStrLt_irrefl _
      · rw [hwl] at h
        dsimp only at h
        by_cases hq : pyStrLt q'.2.timestamp p.2.timestamp = true
        · rw [if_pos hq] at h
          simp only [Option.some.injEq] at h
          subst h
          rcases List.mem_append.mp hr with hm | hm
          · have hfalse := ih q' hwl r hm hrpid
            cases hcc : pyStrLt p.2.timestamp r.2.timestamp with
            | false => rfl
            | true =>
              have := pyStrLt_trans _ _ _ hq hcc
              rw [hfalse] at this
              exact absurd this (by simp)
          · simp only [List.mem_singleton] at hm
            subst hm
            exact pyStrLt_irrefl _
        · rw [if_neg hq] at h
          simp only [Option.some.injEq] at h
          subst h
          rcases List.mem_append.mp hr with hm | hm
          · exact ih _ hwl r hm hrpid
          · simp only [List.mem_singleton] at hm
            subst hm
            simpa using hq
    · rw [if_neg hp] at h
      rcases List.mem_append.mp hr with hm | hm
      · exact ih _ h r hm hrpid
      · simp only [List.mem_singleton] at hm
        subst hm
        exact absurd hrpid hp

theorem winner_complete (l : List (Nat × WebhookEvent)) (pid : Nat) (r : Nat × WebhookEvent)
    (hm : r ∈ l) (hpid : r.2.pid = some pid) : ∃ q, winner l pid = some q := by
  rcases h : winner l pid with _ | q
  · exact absurd hpid (winner_none l pid h r hm)
  · exact ⟨q, rfl⟩

theorem mem_kept_iff (events : List WebhookEvent) (ev : WebhookEvent) :
    ev ∈ (deduplicate_product_events events).1 ↔
      ∃ i pid, (i, ev) ∈ withIdx 0 events ∧
        winner (withIdx 0 events) pid = some (i, ev) := by
  unfold deduplicate_product_events
  constructor
  · intro h
    obtain ⟨p, hpf, hsnd⟩ := List.mem_map.mp h
    obtain ⟨hpm, hpc⟩ := List.mem_filter.mp hpf
    have hic : p.1 ∈ (List.foldl dedupStep [] (withIdx 0 events)).map (fun kv => kv.2.1) :=
      List.elem_iff.mp hpc
    obtain ⟨kv, hkv, hkvi⟩ := List.mem_map.mp hic
    have hlk : (List.foldl dedupStep [] (withIdx 0 events)).lookup kv.1 = some kv.2 :=
      (lookup_eq_some_iff_mem _ (dedup_fold_keys_nodup _) kv.1 kv.2).mpr (by
        rcases kv with ⟨k, v⟩
        exact hkv)
    have hwin : winner (withIdx 0 events) kv.1 = some kv.2 :=
      (dedup_fold_lookup _ kv.1).symm.trans hlk
    obtain ⟨hqm, _⟩ := winner_mem _ kv.1 kv.2 hwin
    have hpev : (p.1, ev) ∈ withIdx 0 events := by
      rw [← hsnd]
      exact hpm
    have h1 : (p.1, kv.2.2) ∈ withIdx 0 events := by
      have he : kv.2 = (p.1, kv.2.2) := Prod.ext_iff.mpr ⟨hkvi, rfl⟩
      rw [← he]
      exact hqm
    have hev : kv.2.2 = ev := withIdx_inj 0 events p.1 kv.2.2 ev h1 hpev
    refine ⟨p.1, kv.1, hpev, ?_⟩
    have he2 : kv.2 = (p.1, ev) := Prod.ext_iff.mpr ⟨hkvi, hev⟩
    rw [← he2]
    exact hwin
  · rintro ⟨i, pid, him, hwin⟩
    have hmem : (pid, (i, ev)) ∈ List.foldl dedupStep [] (withIdx 0 events) :=
      (lookup_eq_some_iff_mem _ (dedup_fold_keys_nodup _) pid (i, ev)).mp
        ((dedup_fold_lookup _ pid).trans hwin)
    have hic : i ∈ (List.foldl dedupStep [] (withIdx 0 events)).map (fun kv => kv.2.1) :=
      List.mem_map.mpr ⟨(pid, (i, ev)), hmem, rfl⟩
    exact List.mem_map.mpr ⟨(i, ev),
      List.mem_filter.mpr ⟨him, List.elem_iff.mpr hic⟩, rfl⟩

/-- C4: under per-product distinct timestamps, the batch dedup keeps for
each product id exactly the event with the lexicographically-latest
timestamp (code-point comparison, `pyStrLt`); every other event lands in
the skipped list, and the skipped loop marks each one `processed` (its
only effect). -/
theorem dedup_latest_per_product (events : List WebhookEvent)
    (hts : ∀ ev ∈ events, ∀ ev' ∈ events, ev.pid ≠ none → ev.pid = ev'.pid →
      ev ≠ ev' → ev.timestamp ≠ ev'.timestamp) :
    (∀ ev ∈ (deduplicate_product_events events).1, ev ∈ events)
    ∧ (∀ p ev, ev ∈ events → ev.pid = some p →
        (ev ∈ (deduplicate_product_events events).1 ↔
          ∀ ev' ∈ events, ev'.pid = some p → ev' ≠ ev →
            pyStrLt ev'.timestamp ev.timestamp = true))
    ∧ (∀ ev ∈ events,
        ev ∈ (deduplicate_product_events events).1 ∨
        ev ∈ (deduplicate_product_events events).2)
    ∧ (∀ ev ∈ (deduplicate_product_events events).2,
        (ev.file, "processed") ∈
          mark_skipped_processed (deduplicate_product_events events).2) := by
  refine ⟨?_, ?_, ?_, ?_⟩
  · intro ev hev
    obtain ⟨i, pid, him, _⟩ := (mem_kept_iff events ev).mp hev
    exact withIdx_mem_snd 0 events i ev him
  · intro p ev hev hpid
    constructor
    · intro hk ev' hev' hpid' hne
      obtain ⟨i, pid, him, hwin⟩ := (mem_kept_iff events ev).mp hk
      have hpe : pid = p := by
        have h2 := (winner_mem _ pid (i, ev) hwin).2
        dsimp only at h2
        rw [hpid] at h2
        exact (Option.some.inj h2).symm
      subst hpe
      obtain ⟨j, hjm⟩ := withIdx_complete 0 events ev' hev'
      have hmax : pyStrLt ev.timestamp ev'.timestamp = false :=
        winner_max _ pid (i, ev) hwin (j, ev') hjm hpid'
      have hne' : ev'.timestamp ≠ ev.timestamp :=
        hts ev' hev' ev hev (by rw [hpid']; simp) (by rw [hpid', hpid]) hne
      rcases pyStrLt_total ev'.timestamp ev.timestamp hne' with ht | ht
      · exact ht
      · rw [hmax] at ht
        exact absurd ht (by simp)
    · intro hmax
      obtain ⟨j, hjm⟩ := withIdx_complete 0 events ev hev
      obtain ⟨q, hq⟩ := winner_complete (withIdx 0 events) p (j, ev) hjm hpid
      have hqm := winner_mem _ p q hq
      have hqev : q.2 = ev := by
        by_contra hneq
        have hlt : pyStrLt q.2.timestamp ev.timestamp = true :=
          hmax q.2 (withIdx_mem_snd 0 events q.1 q.2 (by
            rcases hq2 : q with ⟨qi, qe⟩
            rw [hq2] at hqm
            exact hqm.1)) hqm.2 hneq
        have hfalse : pyStrLt q.2.timestamp ev.timestamp = false :=
          winner_max _ p q hq (j, ev) hjm hpid
        rw [hfalse] at hlt
        exact absurd hlt (by simp)
      refine (mem_kept_iff events ev).mpr ⟨q.1, p, ?_, ?_⟩
      · have he : q = (q.1, ev) := Prod.ext_iff.mpr ⟨rfl, hqev⟩
        rw [← he]
        exact hqm.1
      · have he : q = (q.1, ev) := Prod.ext_iff.mpr ⟨rfl, hqev⟩
        rw [← he]
        exact hq
  · intro ev hev
    obtain ⟨i, him⟩ := withIdx_complete 0 events ev hev
    by_cases hc : ((List.foldl dedupStep [] (withIdx 0 events)).map
        (fun kv => kv.2.1)).contains i
    · left
      unfold deduplicate_product_events
      exact List.mem_map.mpr ⟨(i, ev), List.mem_filter.mpr ⟨him, by simpa using hc⟩, rfl⟩
    · right
      unfold deduplicate_product_events
      exact List.mem_map.mpr ⟨(i, ev), List.mem_filter.mpr ⟨him, by simpa using hc⟩, rfl⟩
  · intro ev hev
    exact List.mem_map.mpr ⟨ev, hev, rfl⟩

/-- Witness for C4: three unread events for product 42 at timestamps
T1 < T2 < T3 plus one for product 7 at T4 keep exactly the T3 and T4
events, skip the older two, and mark them processed. -/
theorem dedup_latest_per_product_witness :
    (⟨"f3", some 42, "T3"⟩ : WebhookEvent) ∈
      (deduplicate_product_events
        [⟨"f1", some 42, "T1"⟩, ⟨"f2", some 42, "T2"⟩, ⟨"f3", some 42, "T3"⟩,
         ⟨"f4", some 7, "T4"⟩]).1 ∧
    deduplicate_product_events
        [⟨"f1", some 42, "T1"⟩, ⟨"f2", some 42, "T2"⟩, ⟨"f3", some 42, "T3"⟩,
         ⟨"f4", some 7, "T4"⟩] =
      ([⟨"f3", some 42, "T3"⟩, ⟨"f4", some 7, "T4"⟩],
       [⟨"f1", some 42, "T1"⟩, ⟨"f2", some 42, "T2"⟩]) ∧
    mark_skipped_processed [⟨"f1", some 42, "T1"⟩, ⟨"f2", some 42, "T2"⟩] =
      [("f1", "processed"), ("f2", "processed")] := by
  refine ⟨?_, by decide, by decide⟩
  exact ((dedup_latest_per_product
    [⟨"f1", some 42, "T1"⟩, ⟨"f2", some 42, "T2"⟩, ⟨"f3", some 42, "T3"⟩,
     ⟨"f4", some 7, "T4"⟩] (by decide)).2.1 42 ⟨"f3", some 42, "T3"⟩ (by decide) rfl).mpr
    (by decide)

/-! ## C9: HMAC-SHA256 webhook authentication -/

theorem beBytes_lt (k n : Nat) : ∀ x ∈ beBytes k n, x < 256 := by
  intro x hx
  simp only [beBytes, List.mem_map] at hx
  obtain ⟨i, _, hi⟩ := hx
  rw [← hi]
  exact Nat.mod_lt _ (by omega)

theorem sha256_bytes (msg : List Nat) : ∀ x ∈ sha256 msg, x < 256 := by
  intro x hx
  unfold sha256 at hx
  rw [List.mem_flatten] at hx
  obtain ⟨l, hl, hxl⟩ := hx
  rw [List.mem_map] at hl
  obtain ⟨w, _, hw⟩ := hl
  rw [← hw] at hxl
  exact beBytes_lt 4 w x hxl

theorem b64Char_ne_eq : ∀ n, n < 64 → b64Char n ≠ '=' := by decide

theorem b64DecChar_b64Char : ∀ n, n < 64 → b64DecChar (b64Char n) = n := by decide

theorem b64_roundtrip : ∀ l : List Nat, (∀ x ∈ l, x < 256) → b64Decode (b64Encode l) = l
  | [], _ => rfl
  | [a], h => by
    have ha : a < 256 := h a (by simp)
    have h1 : b64DecChar (b64Char (a / 4)) = a / 4 := b64DecChar_b64Char _ (by omega)
    have h2 : b64DecChar (b64Char (a % 4 * 16)) = a % 4 * 16 :=
      b64DecChar_b64Char _ (by omega)
    simp only [b64Encode, b64Decode, h1, h2, if_pos]
    have : a / 4 * 4 + a % 4 * 16 / 16 = a := by omega
    rw [this]
  | [a, b], h => by
    have ha : a < 256 := h a (by simp)
    have hb : b < 256 := h b (by simp)
    have h1 : b64DecChar (b64Char (a / 4)) = a / 4 := b64DecChar_b64Char _ (by omega)
    have h2 : b64DecChar (b64Char (a % 4 * 16 + b / 16)) = a % 4 * 16 + b / 16 :=
      b64DecChar_b64Char _ (by omega)
    have h3 : b64DecChar (b64Char (b % 16 * 4)) = b % 16 * 4 :=
      b64DecChar_b64Char _ (by omega)
    have hne : b64Char (b % 16 * 4) ≠ '=' := b64Char_ne_eq _ (by omega)
    simp only [b64Encode, b64Decode, h1, h2, h3, if_neg hne, if_pos]
    have e1 : a / 4 * 4 + (a % 4 * 16 + b / 16) / 16 = a := by omega
    have e2 : (a % 4 * 16 + b / 16) % 16 * 16 + b % 16 * 4 / 4 = b := by omega
    rw [e1, e2]
  | a :: b :: c :: rest, h => by
    have ha : a < 256 := h a (by simp)
    have hb : b < 256 := h b (by simp)
    have hc : c < 256 := h c (by simp)
    have hrest := b64_roundtrip rest (fun x hx => h x (by simp [hx]))
    have h1 : b64DecChar (b64Char (a / 4)) = a / 4 := b64DecChar_b64Char _ (by omega)
    have h2 : b64DecChar (b64Char (a % 4 * 16 + b / 16)) = a % 4 * 16 + b / 16 :=
      b64DecChar_b64Char _ (by omega)
    have h3 : b64DecChar (b64Char (b % 16 * 4 + c / 64)) = b % 16 * 4 + c / 64 :=
      b64DecChar_b64Char _ (by omega)
    have h4 : b64DecChar (b64Char (c % 64)) = c % 64 := b64DecChar_b64Char _ (by omega)
    have hne3 : b64Char (b % 16 * 4 + c / 64) ≠ '=' := b64Char_ne_eq _ (by omega)
    have hne4 : b64Char (c % 64) ≠ '=' := b64Char_ne_eq _ (by omega)
    show b64Decode (b64Char (a / 4) :: b64Char (a % 4 * 16 + b / 16) ::
      b64Char (b % 16 * 4 + c / 64) :: b64Char (c % 64) :: b64Encode rest) = a :: b :: c :: rest
    simp only [b64Decode, h1, h2, h3, h4, if_neg hne3, if_neg hne4, hrest]
    have e1 : a / 4 * 4 + (a % 4 * 16 + b / 16) / 16 = a := by omega
    have e2 : (a % 4 * 16 + b / 16) % 16 * 16 + (b % 16 * 4 + c / 64) / 4 = b := by omega
    have e3 : (b % 16 * 4 + c / 64) % 4 * 64 + c % 64 = c := by omega
    rw [e1, e2, e3]

theorem b64Encode_inj (l l' : List Nat) (hl : ∀ x ∈ l, x < 256) (hl' : ∀ x ∈ l', x < 256)
    (h : b64Encode l = b64Encode l') : l = l' := by
  have := congrArg b64Decode h
  rwa [b64_roundtrip l hl, b64_roundtrip l' hl'] at this

/-- C9: webhook authentication succeeds exactly when the claimed header
equals the base64-encoded HMAC-SHA256 of the raw body under the secret;
the genuine signature is always accepted, any other header is rejected,
and a body whose HMAC differs is rejected under the genuine signature. -/
theorem webhook_hmac_auth :
    (∀ (data : List Nat) (header secret : String),
      verify_shopify_hmac data header secret = true ↔
        header = String.mk (b64Encode (hmacSha256 (strBytes secret) data)))
    ∧ (∀ (data : List Nat) (secret : String),
        verify_shopify_hmac data
          (String.mk (b64Encode (hmacSha256 (strBytes secret) data))) secret = true)
    ∧ (∀ (data : List Nat) (header secret : String),
        header ≠ String.mk (b64Encode (hmacSha256 (strBytes secret) data)) →
        verify_shopify_hmac data header secret = false)
    ∧ (∀ (data data2 : List Nat) (secret : String),
        hmacSha256 (strBytes secret) data ≠ hmacSha256 (strBytes secret) data2 →
        verify_shopify_hmac data2
          (String.mk (b64Encode (hmacSha256 (strBytes secret) data))) secret = false) := by
  have key : ∀ (data : List Nat) (header secret : String),
      verify_shopify_hmac data header secret = true ↔
        header = String.mk (b64Encode (hmacSha256 (strBytes secret) data)) := by
    intro data header secret
    unfold verify_shopify_hmac
    rw [beq_iff_eq]
    exact eq_comm
  refine ⟨key, fun data secret => (key _ _ _).mpr rfl, ?_, ?_⟩
  · intro data header secret hne
    rcases hv : verify_shopify_hmac data header secret with _ | _
    · rfl
    · exact absurd ((key _ _ _).mp hv) hne
  · intro data data2 secret hne
    rcases hv : verify_shopify_hmac data2
        (String.mk (b64Encode (hmacSha256 (strBytes secret) data))) secret with _ | _
    · rfl
    · exfalso
      have heq := (key _ _ _).mp hv
      have henc : b64Encode (hmacSha256 (strBytes secret) data) =
          b64Encode (hmacSha256 (strBytes secret) data2) := by
        have := congrArg String.data heq
        simpa using this
      exact hne (b64Encode_inj _ _
        (sha256_bytes _) (sha256_bytes _) henc)

set_option maxRecDepth 8000 in
/-- Witness for C9: with secret `"s"`, the bodies `[0]` and `[1]` have
different HMACs, so the genuine signature for `[0]` is rejected for the
mutated body `[1]`. -/
theorem webhook_hmac_auth_witness :
    verify_shopify_hmac [1]
      (String.mk (b64Encode (hmacSha256 (strBytes "s") [0]))) "s" = false :=
  webhook_hmac_auth.2.2.2 [0] [1] "s" (by decide)

/-! ## C1: inventory quantity override

`process_products.process_inventory_event` builds the quantity/price
payload with `seller_id=BLUEFLY_SELLER_ID` (so every `SellerSKU` is the
structured slug) but matches `bp["SellerSKU"]` against the bare variant
SKU returned by `find_product_by_inventory_item`, so the webhook-supplied
`available` value is never written on that path; `app.py`'s
`_sync_inventory_to_bluefly` builds the payload without a seller id and
the override fires. -/

/-- C1 (code-bug evidence): for the sample product (variant SKU `ABC123`,
enriched quantity 3) and webhook value 7, the batch path pushes quantity 3
unchanged — its structured SellerSKU `gucci-shoes-abc123-c2222` never
equals the resolver's bare `ABC123` — while the webhook path pushes 7. -/
theorem inventory_override_batch_never_matches :
    (process_inventory_payload_batch sampleProduct sampleMetafields "5678" "ABC123"
        7).BuyableProducts.map (fun bp => bp.Quantity) = [3]
    ∧ (process_inventory_payload_batch sampleProduct sampleMetafields "5678" "ABC123"
        7).BuyableProducts.map (fun bp => bp.SellerSKU) = ["gucci-shoes-abc123-c2222"]
    ∧ (process_inventory_payload_webhook sampleProduct sampleMetafields "ABC123"
        7).BuyableProducts.map (fun bp => bp.Quantity) = [7] := by
  refine ⟨by decide, by decide, by decide⟩

end BlueflySync